import Mathlib

/-!
# Arlo-Bot: watch registry, subscription gate, prober and poll scheduler

A shallow embedding of `src/my-bot.js`.

* The two process-wide `Map`s (`monitoredUsernames`, `userSubscriptions`) are
  insertion-ordered slot lists, as the ECMAScript `Map` data list is: `set`
  on a present key rewrites the slot in place, `set` on an absent key appends
  a slot, `delete` empties the slot, and a live iterator is an index into
  the slot list.
* The values of `monitoredUsernames` are JavaScript arrays, i.e. mutable
  objects held by reference.  The store therefore has a heap of array objects;
  `push` and `splice` rewrite a heap cell in place, while `map` and `filter`
  allocate a fresh cell.  A sweep keeps the reference `userDataArray` it got
  from the iterator across its suspension points.
* `Date.now()` is read once per synchronous segment and passed in as `now`.
* Every `await` is a suspension point; what runs between two suspension
  points is one total function on the store.
* `response.data` is the value axios hands over: the body as a string, or the
  value `JSON.parse` gives for a body that is valid JSON.
* Times are integers; the arithmetic of the code on doubles is exact for them
  below `2 ^ 53` in absolute value, which is where `formatTime` follows it.
-/

namespace ArloBot

/-! ## Data model -/

/-- The `status` field of a monitor entry: `"monitoring"` or `"checking"`. -/
inductive Status where
  | monitoring
  | checking
deriving DecidableEq, Repr

/-- The object pushed at lines 276-281 of `my-bot.js`. -/
structure MonitorEntry where
  startTime : Int
  userId : String
  status : Status
  lastChecked : Int
deriving DecidableEq, Repr

/-- The object stored by `!adduser` at lines 167-171. -/
structure Subscription where
  expiryDate : Int
  addedBy : String
  addedAt : Int
deriving DecidableEq, Repr

/-! ## Insertion-ordered `Map` -/

/-- Slot list of a JavaScript `Map` with string keys: `none` is a slot whose
entry was deleted. -/
abbrev JsMap (V : Type) := List (Option (String × V))

namespace JsMap

/-- Lookup as done by `Map.prototype.get`: the value of the live slot with key `k`. -/
def get {V : Type} : JsMap V → String → Option V
  | [], _ => none
  | none :: t, k => get t k
  | some (k', v) :: t, k => if k' = k then some v else get t k

/-- Membership test `Map.prototype.has`. -/
def has {V : Type} (m : JsMap V) (k : String) : Bool := (get m k).isSome

/-- Update as done by `Map.prototype.set`: rewrite the live slot of `k`, or append a new slot. -/
def set {V : Type} : JsMap V → String → V → JsMap V
  | [], k, v => [some (k, v)]
  | none :: t, k, v => none :: set t k v
  | some (k', v') :: t, k, v =>
    if k' = k then some (k, v) :: t else some (k', v') :: set t k v

/-- Removal as done by `Map.prototype.delete`: the slot of `k` becomes empty. -/
def delete {V : Type} : JsMap V → String → JsMap V
  | [], _ => []
  | none :: t, k => none :: delete t k
  | some (k', v) :: t, k =>
    if k' = k then none :: delete t k else some (k', v) :: delete t k

/-- The live entries in iteration order. -/
def entries {V : Type} (m : JsMap V) : List (String × V) := m.filterMap id

/-- The `size` property: the number of live entries. -/
def size {V : Type} (m : JsMap V) : Nat := (entries m).length

end JsMap

/-! ## Store -/

/-- The module-level mutable state of `my-bot.js`. -/
structure Store where
  /-- array objects by identity -/
  heap : Nat → List MonitorEntry
  /-- the identity the next allocated array gets -/
  nextRef : Nat
  /-- `monitoredUsernames`: username to array reference -/
  monitoredUsernames : JsMap Nat
  /-- `userSubscriptions` -/
  userSubscriptions : JsMap Subscription
  /-- `processedMessages`, oldest first -/
  processedMessages : List String

/-- The state at module load: both maps and the set are empty. -/
def Store.init : Store :=
  { heap := fun _ => [], nextRef := 0, monitoredUsernames := [],
    userSubscriptions := [], processedMessages := [] }

/-- Allocation of a new array object (an array literal, `map` or `filter` result). -/
def Store.alloc (st : Store) (arr : List MonitorEntry) : Nat × Store :=
  (st.nextRef,
    { st with heap := Function.update st.heap st.nextRef arr, nextRef := st.nextRef + 1 })

/-- The array stored under `username`, read through the heap. -/
def Store.entriesOf (st : Store) (username : String) : Option (List MonitorEntry) :=
  (JsMap.get st.monitoredUsernames username).map st.heap

/-- The registry as a value: each live username with the content of its array. -/
def Store.registry (st : Store) : List (String × List MonitorEntry) :=
  (JsMap.entries st.monitoredUsernames).map (fun kv => (kv.1, st.heap kv.2))

/-- `Array.prototype.findIndex`, with `none` for `-1`. -/
def findIndex {α : Type} (p : α → Bool) : List α → Option Nat
  | [] => none
  | a :: t => if p a then some 0 else (findIndex p t).map (· + 1)

/-! ## Watch registry operations (`!watch`, `!unwatch`) -/

/-- Outcome of the registry update of `!watch`. -/
inductive WatchResult where
  | Added
  | AlreadyWatching
  | SlotLimitExceeded
deriving DecidableEq, Repr

/-- Outcome of the registry update of `!unwatch`. -/
inductive UnwatchResult where
  | Removed
  | NotWatching
deriving DecidableEq, Repr

/-- The counting loop of lines 256-263: entries of `author` over all live usernames. -/
def userMonitorCount (st : Store) (author : String) : Nat :=
  ((JsMap.entries st.monitoredUsernames).map
    (fun kv => (st.heap kv.2).countP (fun data => data.userId == author))).sum

/-- Lines 238-289: the registry update of the `!watch` command. -/
def addWatch (now : Int) (username author : String) (st : Store) : WatchResult × Store :=
  let userAlreadyMonitoring : Option MonitorEntry :=
    match JsMap.get st.monitoredUsernames username with
    | some r => (st.heap r).find? (fun data => data.userId == author)
    | none => none
  if userAlreadyMonitoring.isSome then (WatchResult.AlreadyWatching, st)
  else if userMonitorCount st author ≥ 3 then (WatchResult.SlotLimitExceeded, st)
  else
    let userMonitoringData : MonitorEntry :=
      { startTime := now, userId := author, status := Status.monitoring, lastChecked := now }
    match JsMap.get st.monitoredUsernames username with
    | some r =>
      (WatchResult.Added,
        { st with
          heap := Function.update st.heap r (st.heap r ++ [userMonitoringData])
          monitoredUsernames := JsMap.set st.monitoredUsernames username r })
    | none =>
      let p := st.alloc [userMonitoringData]
      (WatchResult.Added,
        { p.2 with monitoredUsernames := JsMap.set p.2.monitoredUsernames username p.1 })

/-- Lines 349-362: the registry update of the `!unwatch` command. -/
def removeWatch (username author : String) (st : Store) : UnwatchResult × Store :=
  match JsMap.get st.monitoredUsernames username with
  | some r =>
    match findIndex (fun data => data.userId == author) (st.heap r) with
    | some userIndex =>
      let spliced := (st.heap r).eraseIdx userIndex
      if spliced.length = 0 then
        (UnwatchResult.Removed,
          { st with
            heap := Function.update st.heap r spliced
            monitoredUsernames := JsMap.delete st.monitoredUsernames username })
      else
        (UnwatchResult.Removed,
          { st with
            heap := Function.update st.heap r spliced
            monitoredUsernames := JsMap.set st.monitoredUsernames username r })
    | none => (UnwatchResult.NotWatching, st)
  | none => (UnwatchResult.NotWatching, st)

/-! ## Outbound effects -/

/-- The message templates of the bot, with the values interpolated into them. -/
inductive Text where
  | noSubscription
  | subscriptionExpired
  | adduserUsage
  | invalidDuration
  | addedSubscription (userId : String) (expiryDate : Int)
  | removeuserUsage
  | removedSubscription (userId : String)
  | noSuchSubscription
  | noActiveSubscriptions
  | subscriptionList (items : List (String × Int))
  | invalidUsername
  | alreadyMonitoring (username : String)
  | slotLimit
  | startedMonitoring (author username : String)
  | nowMonitoring (username : String)
  | initialAvailable (username : String)
  | initialBanned (username : String)
  | stoppedMonitoringLog (author username : String)
  | stoppedMonitoring (username : String)
  | notYourUsername
  | notMonitoring (username : String)
  | notMonitoringAny
  | monitoredList (items : List (String × Int))
  | help
  | available (username : String) (totalTime : Int)
  | becameAvailable (username userId : String) (totalTime : Int)
  | apiError (username message : String)
  | rateLimit
  | checkFailed (username message : String)
deriving DecidableEq, Repr

/-- What a synchronous segment hands to the outside world. -/
inductive Effect where
  /-- `message.author.send` / `user.send` -/
  | dm (userId : String) (text : Text)
  /-- `message.reply` -/
  | reply (text : Text)
  /-- a call of `logToAdminChannel` -/
  | adminLog (text : Text)
  /-- the `axios.get` issued by `checkInstagramUsername` -/
  | probe (username : String)
  /-- `client.users.fetch(userId)` -/
  | fetchUser (userId : String)
  /-- `setTimeout(resolve, ms)` -/
  | timer (ms : Nat)
  /-- `randomDelay(min, max)` -/
  | randomDelay (min max : Nat)
deriving DecidableEq, Repr

/-! ## Subscription gate (lines 101-132) -/

/-- The environment: `process.env.ADMIN_ID`, which may be unset. -/
structure Config where
  ADMIN_ID : Option String

/-- How the gate at the head of the message handler ends. -/
inductive GateResult where
  | pass
  | noSubscription
  | expired
deriving DecidableEq, Repr

/-- Lines 101-132: the two `if` blocks that precede every command. -/
def subscriptionGate (cfg : Config) (subs : JsMap Subscription) (author : String) (now : Int) :
    GateResult :=
  if (!JsMap.has subs author) && decide (some author ≠ cfg.ADMIN_ID) then GateResult.noSubscription
  else
    match JsMap.get subs author with
    | some subscription =>
      if decide (subscription.expiryDate < now) && decide (some author ≠ cfg.ADMIN_ID) then
        GateResult.expired
      else GateResult.pass
    | none => GateResult.pass

/-! ## Availability prober (lines 469-517) -/

/-- The value axios hands over as `response.data`.  No `responseType` is set at lines
479-491, so axios runs `JSON.parse` on a non-empty body and keeps the parsed value when
that succeeds; otherwise the body stays the string it is. -/
inductive ResponseData where
  /-- a string: a body that is not valid JSON, or the value of a JSON string -/
  | text (s : String)
  /-- a parsed JSON array; `some s` is an element that is the string `s`, `none` any other
  element -/
  | array (items : List (Option String))
  /-- a parsed JSON object, number or boolean: it has no callable `includes` -/
  | value
  /-- the parsed JSON `null` -/
  | null
deriving DecidableEq, Repr

/-- How the HTTP request of one probe ends, before `validateStatus` is applied. -/
inductive AxiosOutcome where
  /-- a response arrived, with this status and this `response.data` -/
  | response (status : Nat) (data : ResponseData)
  /-- no response: timeout or transport failure -/
  | failure (message : String)
deriving DecidableEq, Repr

/-- A thrown error: its `message` and, when a response arrived, `response.status`. -/
structure JsError where
  message : String
  responseStatus : Option Nat
deriving DecidableEq, Repr

/-- The object returned by `checkInstagramUsername`. -/
structure ProbeResult where
  status : Nat
  data : Option ResponseData
deriving DecidableEq, Repr

/-- The `validateStatus` callback of lines 488-490. -/
def validateStatus (status : Nat) : Bool :=
  (decide (status ≥ 200) && decide (status < 300)) || status == 404

/-- The promise of `axios.get`: resolved when `validateStatus` accepts the status,
rejected otherwise and on failure. -/
def axiosGet (o : AxiosOutcome) : Except JsError (Nat × ResponseData) :=
  match o with
  | AxiosOutcome.response status data =>
    if validateStatus status then Except.ok (status, data)
    else Except.error
      { message := s!"Request failed with status code {status}", responseStatus := some status }
  | AxiosOutcome.failure message => Except.error { message := message, responseStatus := none }

/-- `String.prototype.includes`: `marker` occurs as a contiguous substring of `text`. -/
def includes (text marker : String) : Bool := decide (marker.data <:+: text.data)

/-- The call `responseText.includes(marker)`: the substring test on a string, the element
test on an array, and a `TypeError` on any other value. -/
def dataIncludes (responseText : ResponseData) (marker : String) : Except JsError Bool :=
  match responseText with
  | ResponseData.text s => Except.ok (includes s marker)
  | ResponseData.array items => Except.ok (items.contains (some marker))
  | ResponseData.value =>
    Except.error { message := "responseText.includes is not a function", responseStatus := none }
  | ResponseData.null =>
    Except.error
      { message := "Cannot read properties of null (reading \'includes\')",
        responseStatus := none }

/-- The operator `||` on two tests, the second evaluated only when the first is false. -/
def jsOr (a : Except JsError Bool) (b : Unit → Except JsError Bool) : Except JsError Bool :=
  match a with
  | Except.ok true => Except.ok true
  | Except.ok false => b ()
  | Except.error e => Except.error e

/-- The marker substrings tested at lines 497-501. -/
def markers : List String :=
  ["\"user\":null", "Sorry, this page isn't available", "The link you followed may be broken",
    "Page Not Found", "login"]

/-- The `try` block of lines 478-507: the result it returns, or the error it throws. -/
def checkInstagramUsernameTry (o : AxiosOutcome) : Except JsError ProbeResult :=
  match axiosGet o with
  | Except.ok (status, responseText) =>
    let isAvailable : Except JsError Bool :=
      jsOr (dataIncludes responseText "\"user\":null") fun _ =>
      jsOr (dataIncludes responseText "Sorry, this page isn't available") fun _ =>
      jsOr (dataIncludes responseText "The link you followed may be broken") fun _ =>
      jsOr (dataIncludes responseText "Page Not Found") fun _ =>
      jsOr (dataIncludes responseText "login") fun _ =>
      Except.ok (status == 404)
    match isAvailable with
    | Except.ok available =>
      Except.ok { status := if available then 404 else 200, data := some responseText }
    | Except.error error => Except.error error
  | Except.error error => Except.error error

/-- Lines 469-517.  The result is the settled promise (`Except.error` would be a
rejection) together with the admin-log call of the `catch` block at lines 508-516, which
turns every error thrown in the `try` block into the result `{ status: 200, data: null }`. -/
def checkInstagramUsername (username : String) (o : AxiosOutcome) :
    Except JsError ProbeResult × List Effect :=
  match checkInstagramUsernameTry o with
  | Except.ok result => (Except.ok result, [])
  | Except.error error =>
    (Except.ok { status := 200, data := none },
      [Effect.adminLog (Text.apiError username error.message)])

/-! ## Command dispatcher (lines 87-454) -/

/-- The command a message content selects.  The prefixes tested by the handler
exclude one another, so a content selects at most one of them; the argument is
what the handler extracts from the content (`slice`, `trim`, the mention pattern). -/
inductive Command where
  /-- `!adduser `: the groups of the pattern, the duration lower-cased; `none` on no match -/
  | adduser (arg : Option (String × String))
  /-- `!removeuser `: the id of the mention; `none` on no match -/
  | removeuser (arg : Option String)
  | listsubs
  /-- `!watch `: the trimmed rest of the content -/
  | watch (username : String)
  /-- `!unwatch `: the trimmed rest of the content -/
  | unwatch (username : String)
  | list
  | help
  | other
deriving DecidableEq, Repr

/-- An inbound chat message. -/
structure Message where
  id : String
  authorId : String
  authorBot : Bool
  command : Command
deriving DecidableEq, Repr

/-- Lines 92-99: record the message id and drop the 100 oldest ids once more than 1000 are kept. -/
def recordMessage (processed : List String) (id : String) : List String :=
  let added := processed ++ [id]
  if added.length > 1000 then added.drop 100 else added

/-- The `switch` of lines 151-165: offset of a duration token in milliseconds. -/
def durationOffset (duration : String) : Option Int :=
  if duration = "1week" then some (7 * 24 * 60 * 60 * 1000)
  else if duration = "1month" then some (30 * 24 * 60 * 60 * 1000)
  else if duration = "1year" then some (365 * 24 * 60 * 60 * 1000)
  else none

/-- The entries of `author` with their usernames, as collected by `!list` (lines 396-403). -/
def listFor (st : Store) (author : String) : List (String × MonitorEntry) :=
  (JsMap.entries st.monitoredUsernames).flatMap
    (fun kv => ((st.heap kv.2).filter (fun data => data.userId == author)).map
      (fun data => (kv.1, data)))

/-- The command blocks of lines 134-453, run after the gate has let the message through.
The third component is the `!watch` handler left suspended before its initial check. -/
def dispatch (cfg : Config) (now : Int) (message : Message) (st : Store) :
    Store × List Effect × Option (String × String) :=
  let author := message.authorId
  match message.command with
  | Command.adduser arg =>
    if some author = cfg.ADMIN_ID then
      match arg with
      | none => (st, [Effect.reply Text.adduserUsage], none)
      | some (userId, duration) =>
        match durationOffset duration with
        | none => (st, [Effect.reply Text.invalidDuration], none)
        | some offset =>
          let expiryDate := now + offset
          ({ st with
              userSubscriptions := JsMap.set st.userSubscriptions userId
                { expiryDate := expiryDate, addedBy := author, addedAt := now } },
            [Effect.adminLog (Text.addedSubscription userId expiryDate),
              Effect.reply (Text.addedSubscription userId expiryDate)], none)
    else (st, [], none)
  | Command.removeuser arg =>
    if some author = cfg.ADMIN_ID then
      match arg with
      | none => (st, [Effect.reply Text.removeuserUsage], none)
      | some userId =>
        if JsMap.has st.userSubscriptions userId then
          ({ st with userSubscriptions := JsMap.delete st.userSubscriptions userId },
            [Effect.adminLog (Text.removedSubscription userId),
              Effect.reply (Text.removedSubscription userId)], none)
        else (st, [Effect.reply Text.noSuchSubscription], none)
    else (st, [], none)
  | Command.listsubs =>
    if some author = cfg.ADMIN_ID then
      if JsMap.size st.userSubscriptions = 0 then
        (st, [Effect.reply Text.noActiveSubscriptions], none)
      else
        (st, [Effect.reply (Text.subscriptionList
          ((JsMap.entries st.userSubscriptions).map (fun kv => (kv.1, kv.2.expiryDate - now))))],
          none)
    else (st, [], none)
  | Command.watch username =>
    if username.length < 1 then (st, [Effect.dm author Text.invalidUsername], none)
    else
      match addWatch now username author st with
      | (WatchResult.AlreadyWatching, st1) =>
        (st1, [Effect.dm author (Text.alreadyMonitoring username)], none)
      | (WatchResult.SlotLimitExceeded, st1) => (st1, [Effect.dm author Text.slotLimit], none)
      | (WatchResult.Added, st1) =>
        (st1, [Effect.adminLog (Text.startedMonitoring author username),
          Effect.dm author (Text.nowMonitoring username), Effect.probe username],
          some (username, author))
  | Command.unwatch username =>
    match removeWatch username author st with
    | (UnwatchResult.Removed, st1) =>
      (st1, [Effect.adminLog (Text.stoppedMonitoringLog author username),
        Effect.dm author (Text.stoppedMonitoring username)], none)
    | (UnwatchResult.NotWatching, st1) =>
      if JsMap.has st.monitoredUsernames username then
        (st1, [Effect.dm author Text.notYourUsername], none)
      else (st1, [Effect.dm author (Text.notMonitoring username)], none)
  | Command.list =>
    let userMonitored := listFor st author
    if userMonitored.length = 0 then (st, [Effect.dm author Text.notMonitoringAny], none)
    else
      (st, [Effect.dm author (Text.monitoredList
        (userMonitored.map (fun p => (p.1, now - p.2.startTime))))], none)
  | Command.help => (st, [Effect.dm author Text.help], none)
  | Command.other => (st, [], none)

/-- Lines 87-454 up to the first suspension of an accepted command: bot filter,
duplicate filter, subscription gate, command blocks. -/
def messageCreate (cfg : Config) (now : Int) (message : Message) (st : Store) :
    Store × List Effect × Option (String × String) :=
  if message.authorBot then (st, [], none)
  else if st.processedMessages.contains message.id then (st, [], none)
  else
    let st1 := { st with processedMessages := recordMessage st.processedMessages message.id }
    match subscriptionGate cfg st1.userSubscriptions message.authorId now with
    | GateResult.noSubscription => (st1, [Effect.dm message.authorId Text.noSubscription], none)
    | GateResult.expired => (st1, [Effect.dm message.authorId Text.subscriptionExpired], none)
    | GateResult.pass => dispatch cfg now message st1

/-- Lines 303-343: the `!watch` handler resumes with the outcome of its initial check. -/
def watchChecked (username author : String) (o : AxiosOutcome) (st : Store) :
    Store × List Effect :=
  let c := checkInstagramUsername username o
  match c.1 with
  | Except.ok result =>
    if result.status = 404 then
      match JsMap.get st.monitoredUsernames username with
      | some r =>
        let p := st.alloc ((st.heap r).filter (fun data => data.userId != author))
        if (p.2.heap p.1).length = 0 then
          ({ p.2 with monitoredUsernames := JsMap.delete p.2.monitoredUsernames username },
            c.2 ++ [Effect.dm author (Text.initialAvailable username)])
        else
          ({ p.2 with monitoredUsernames := JsMap.set p.2.monitoredUsernames username p.1 },
            c.2 ++ [Effect.dm author (Text.initialAvailable username)])
      | none => (st, c.2 ++ [Effect.dm author (Text.initialAvailable username)])
    else (st, c.2 ++ [Effect.dm author (Text.initialBanned username)])
  | Except.error _ => (st, c.2 ++ [Effect.dm author (Text.initialBanned username)])

/-! ## Poll scheduler (lines 520-602) -/

/-- Where a sweep is suspended.  `pos` is the index of the `Map` iterator into the
slot list, `userDataArray` the array reference the iterator handed out. -/
inductive SweepPhase where
  /-- line 524: the fixed initial delay -/
  | starting
  /-- line 530: the random delay before `username` is checked -/
  | delaying (pos : Nat) (username : String) (userDataArray : Nat)
  /-- line 540: awaiting `checkInstagramUsername(username)` -/
  | probing (pos : Nat) (username : String) (userDataArray : Nat)
  /-- line 554: awaiting `client.users.fetch(data.userId)` for entry `index`, with
  `totalTime` as computed at line 551 -/
  | fetching (pos : Nat) (username : String) (userDataArray : Nat) (index : Nat)
      (data : MonitorEntry) (totalTime : Int)
  /-- line 555: awaiting `user.send(...)` for entry `index` -/
  | sending (pos : Nat) (username : String) (userDataArray : Nat) (index : Nat)
      (data : MonitorEntry) (totalTime : Int)
  /-- line 593: the ten-minute pause of the rate-limit branch -/
  | cooling (pos : Nat) (username : String) (message : String)
  /-- the callback has returned -/
  | finished
deriving DecidableEq, Repr

/-- The `map` calls of lines 533-537, 573-577 and 581-585. -/
def withStatus (status : Status) (now : Int) (userDataArray : List MonitorEntry) :
    List MonitorEntry :=
  userDataArray.map (fun data => { data with status := status, lastChecked := now })

/-- Lines 526-527: the iterator moves on to the next live slot whose array has no
entry in `checking`; the result is the slot index after it, its key and its value. -/
def nextUsername (heap : Nat → List MonitorEntry) :
    List (Option (String × Nat)) → Nat → Option (Nat × String × Nat)
  | [], _ => none
  | none :: t, pos => nextUsername heap t (pos + 1)
  | some (username, r) :: t, pos =>
    if (heap r).any (fun data => data.status == Status.checking) then
      nextUsername heap t (pos + 1)
    else some (pos + 1, username, r)

/-- The head of the `for` loop run from iterator index `pos` up to the next suspension. -/
def sweepAdvance (st : Store) (pos : Nat) : SweepPhase × List Effect :=
  match nextUsername st.heap (st.monitoredUsernames.drop pos) pos with
  | some (pos1, username, r) =>
    (SweepPhase.delaying pos1 username r, [Effect.randomDelay 10000 30000])
  | none => (SweepPhase.finished, [])

/-- Lines 544-549: the first entry from `index` on whose subscriber has a subscription
that has not expired. -/
def nextNotified (subs : JsMap Subscription) (now : Int) :
    List MonitorEntry → Nat → Option (Nat × MonitorEntry)
  | [], _ => none
  | data :: t, index =>
    match JsMap.get subs data.userId with
    | none => nextNotified subs now t (index + 1)
    | some subscription =>
      if subscription.expiryDate < now then nextNotified subs now t (index + 1)
      else some (index, data)

/-- Lines 543-571 from entry `index` on, up to the next suspension: either the loop
reaches an entitled entry, computes its `totalTime` from the clock reading `now` and asks
for the user (line 554), or the loop ends, the username is deleted and the sweep moves
on. -/
def sweepNotify (now : Int) (st : Store) (pos : Nat) (username : String) (r index : Nat) :
    Store × SweepPhase × List Effect :=
  match nextNotified st.userSubscriptions now ((st.heap r).drop index) index with
  | some (i, data) =>
    let totalTime := now - data.startTime
    (st, SweepPhase.fetching pos username r i data totalTime, [Effect.fetchUser data.userId])
  | none =>
    let st1 :=
      { st with monitoredUsernames := JsMap.delete st.monitoredUsernames username }
    let a := sweepAdvance st1 pos
    (st1, a.1, a.2)

/-- Lines 573-578 and 581-586: write the array the sweep holds back with status `monitoring`. -/
def sweepRevert (now : Int) (st : Store) (username : String) (r : Nat) : Store :=
  let p := st.alloc (withStatus Status.monitoring now (st.heap r))
  { p.2 with monitoredUsernames := JsMap.set p.2.monitoredUsernames username p.1 }

/-- One synchronous segment of the cron callback: the sweep resumes in `phase` at time
`now` and runs to its next suspension.  `o` is the outcome of the request when the sweep
was probing.  A sweep that was fetching the user resumes here when the fetch has resolved
(its rejection is `sweepFetchRejected`); a sweep that was sending resumes here whether
the send resolved or was rejected, the `catch` of line 560 doing nothing to the state. -/
def sweepResume (now : Int) (o : AxiosOutcome) (st : Store) (phase : SweepPhase) :
    Store × SweepPhase × List Effect :=
  match phase with
  | SweepPhase.starting =>
    let a := sweepAdvance st 0
    (st, a.1, a.2)
  | SweepPhase.delaying pos username r =>
    let p := st.alloc (withStatus Status.checking now (st.heap r))
    ({ p.2 with monitoredUsernames := JsMap.set p.2.monitoredUsernames username p.1 },
      SweepPhase.probing pos username r, [Effect.probe username])
  | SweepPhase.probing pos username r =>
    let c := checkInstagramUsername username o
    match c.1 with
    | Except.ok result =>
      if result.status = 404 then
        let n := sweepNotify now st pos username r 0
        (n.1, n.2.1, c.2 ++ n.2.2)
      else
        let st1 := sweepRevert now st username r
        let a := sweepAdvance st1 pos
        (st1, a.1, c.2 ++ a.2)
    | Except.error error =>
      let st1 := sweepRevert now st username r
      if error.responseStatus = some 429 then
        (st1, SweepPhase.cooling pos username error.message,
          c.2 ++ [Effect.adminLog Text.rateLimit, Effect.timer (10 * 60 * 1000)])
      else
        let a := sweepAdvance st1 pos
        (st1, a.1, c.2 ++ [Effect.adminLog (Text.checkFailed username error.message)] ++ a.2)
  | SweepPhase.fetching pos username r index data totalTime =>
    (st, SweepPhase.sending pos username r index data totalTime,
      [Effect.dm data.userId (Text.available username totalTime)])
  | SweepPhase.sending pos username r index data totalTime =>
    let n := sweepNotify now st pos username r (index + 1)
    (n.1, n.2.1, Effect.adminLog (Text.becameAvailable username data.userId totalTime) :: n.2.2)
  | SweepPhase.cooling pos username message =>
    let a := sweepAdvance st pos
    (st, a.1, Effect.adminLog (Text.checkFailed username message) :: a.2)
  | SweepPhase.finished => (st, SweepPhase.finished, [])

/-- The segment run when `client.users.fetch` (line 554) is rejected: the `catch` of line
560 skips `user.send`, the admin log of line 564 is written and the loop goes on with the
next entry.  In any other phase no fetch is awaited and nothing happens. -/
def sweepFetchRejected (now : Int) (st : Store) (phase : SweepPhase) :
    Store × SweepPhase × List Effect :=
  match phase with
  | SweepPhase.fetching pos username r index data totalTime =>
    let n := sweepNotify now st pos username r (index + 1)
    (n.1, n.2.1, Effect.adminLog (Text.becameAvailable username data.userId totalTime) :: n.2.2)
  | other => (st, other, [])

/-- Consecutive segments of one sweep with nothing else running in between and every
awaited `client.users.fetch` resolving. -/
def sweepRun : List (Int × AxiosOutcome) → Store × SweepPhase → (Store × SweepPhase) × List Effect
  | [], s => (s, [])
  | (now, o) :: rest, s =>
    let r := sweepResume now o s.1 s.2
    let q := sweepRun rest (r.1, r.2.1)
    (q.1, r.2.2 ++ q.2)

/-! ## The whole process as a transition system -/

/-- The store together with the suspended tasks: the sweeps started by cron ticks and
the `!watch` handlers awaiting their initial check (username, author). -/
structure System where
  store : Store
  sweeps : List SweepPhase
  watches : List (String × String)

/-- The process after start-up. -/
def System.init : System := { store := Store.init, sweeps := [], watches := [] }

/-- What the event loop can run next. -/
inductive Event where
  /-- a message is delivered at time `now` -/
  | message (now : Int) (m : Message)
  /-- the suspended `!watch` handler number `i` gets the outcome of its initial check -/
  | watchChecked (i : Nat) (o : AxiosOutcome)
  /-- cron fires the callback (line 520) -/
  | tick
  /-- sweep number `i` resumes at time `now` -/
  | sweepResume (i : Nat) (now : Int) (o : AxiosOutcome)
  /-- the `client.users.fetch` awaited by sweep number `i` is rejected at time `now` -/
  | sweepFetchRejected (i : Nat) (now : Int)
deriving DecidableEq, Repr

/-- One turn of the event loop. -/
def step (cfg : Config) (ev : Event) (sys : System) : System × List Effect :=
  match ev with
  | Event.message now m =>
    let r := messageCreate cfg now m sys.store
    match r.2.2 with
    | some w => ({ sys with store := r.1, watches := sys.watches ++ [w] }, r.2.1)
    | none => ({ sys with store := r.1 }, r.2.1)
  | Event.watchChecked i o =>
    match sys.watches.get? i with
    | some w =>
      let r := watchChecked w.1 w.2 o sys.store
      ({ sys with store := r.1, watches := sys.watches.eraseIdx i }, r.2)
    | none => (sys, [])
  | Event.tick =>
    if JsMap.size sys.store.monitoredUsernames = 0 then (sys, [])
    else ({ sys with sweeps := sys.sweeps ++ [SweepPhase.starting] }, [Effect.timer 3000])
  | Event.sweepResume i now o =>
    match sys.sweeps.get? i with
    | some phase =>
      let r := sweepResume now o sys.store phase
      ({ sys with store := r.1, sweeps := sys.sweeps.set i r.2.1 }, r.2.2)
    | none => (sys, [])
  | Event.sweepFetchRejected i now =>
    match sys.sweeps.get? i with
    | some phase =>
      let r := sweepFetchRejected now sys.store phase
      ({ sys with store := r.1, sweeps := sys.sweeps.set i r.2.1 }, r.2.2)
    | none => (sys, [])

/-- The system after a sequence of turns. -/
def run (cfg : Config) : List Event → System → System
  | [], sys => sys
  | ev :: rest, sys => run cfg rest (step cfg ev sys).1

/-- The effects of a sequence of turns, in order. -/
def runLog (cfg : Config) : List Event → System → List Effect
  | [], _ => []
  | ev :: rest, sys => (step cfg ev sys).2 ++ runLog cfg rest (step cfg ev sys).1

/-- The clock readings at every second resumption: when the segments of an AVAILABLE
branch alternate between the resolved fetch and the settled send of one entry, these are
the times at which a send has settled and the loop goes on to the next entries. -/
def sendTimes : List (Int × AxiosOutcome) → List Int
  | _ :: (t, _) :: rest => t :: sendTimes rest
  | _ => []

/-- The states the process can be in: those a sequence of turns leads to from start-up. -/
def Reachable (cfg : Config) (sys : System) : Prop :=
  ∃ evs : List Event, run cfg evs System.init = sys

/-- No live key occurs in two slots, no reference is stored under two keys, and every
stored reference is below `n`. -/
def MapWF (m : JsMap Nat) (n : Nat) : Prop :=
  ((JsMap.entries m).map Prod.fst).Nodup ∧
  ((JsMap.entries m).map Prod.snd).Nodup ∧
  ∀ kv ∈ JsMap.entries m, kv.2 < n

/-- No live username occurs in two slots, no array is stored under two usernames, and
every stored array has been allocated. -/
def Store.WellFormed (st : Store) : Prop := MapWF st.monitoredUsernames st.nextRef

/-- The spec's `isActive(subscriberId, now)`, in the words of the spec: true for the admin
identity, else true iff a subscription exists and its expiry is strictly greater than
`now`. -/
def isActiveSpec (cfg : Config) (subs : JsMap Subscription) (subscriberId : String)
    (now : Int) : Bool :=
  decide (some subscriberId = cfg.ADMIN_ID) ||
    match JsMap.get subs subscriberId with
    | some subscription => decide (subscription.expiryDate > now)
    | none => false

/-- The test of lines 544-549 on one entry: its subscriber has a subscription and the
expiry of that subscription is not before `now`. -/
def entitled (subs : JsMap Subscription) (now : Int) (data : MonitorEntry) : Bool :=
  match JsMap.get subs data.userId with
  | some subscription => !decide (subscription.expiryDate < now)
  | none => false

/-- The direct messages among the effects of a segment. -/
def dmsOf (effects : List Effect) : List (String × Text) :=
  effects.filterMap (fun eff =>
    match eff with
    | Effect.dm userId text => some (userId, text)
    | _ => none)

/-! ## Example states -/

/-- Subscriber `"7"` watches `"a"`, `"b"` and `"c"`. -/
def exampleFull : Store :=
  (addWatch 3 "c" "7" (addWatch 2 "b" "7" (addWatch 1 "a" "7" Store.init).2).2).2

/-- Subscribers `"7"` and `"8"` watch `"alice"`, subscriber `"7"` also watches `"bob"`. -/
def exampleShared : Store :=
  (addWatch 3 "bob" "7" (addWatch 2 "alice" "8" (addWatch 1 "alice" "7" Store.init).2).2).2

/-- The store `exampleShared` with a subscription of `"7"` that expires at 100. -/
def exampleSubscribed : Store :=
  { exampleShared with userSubscriptions := [some ("7", ⟨100, "1", 0⟩)] }

/-- The environment of the examples: the admin identity is `"1"`. -/
def exampleCfg : Config := ⟨some "1"⟩

/-- The store `exampleShared` with subscriptions of `"7"` until 100000 and of `"8"` until
200000. -/
def exampleTwoSubscribed : Store :=
  { exampleShared with
    userSubscriptions := [some ("7", ⟨100000, "1", 0⟩), some ("8", ⟨200000, "1", 0⟩)] }

/-- Times in milliseconds.  At 20000 the admin grants `"7"` one week (expiry 604820000),
then `"8"` and `"9"` one year.  The admin, who has no subscription, `"7"`, `"8"` and `"9"`
watch `"alice"` at 30000, 31000, 32000 and 33000 (all initial checks find the name taken).
A week later the tick at 604800000 starts a sweep, which ends its initial delay at
604803000 and marks `"alice"` at 604815000. -/
def notifyTrace : List Event :=
  [Event.message 20000 ⟨"m1", "1", false, Command.adduser (some ("7", "1week"))⟩,
    Event.message 21000 ⟨"m2", "1", false, Command.adduser (some ("8", "1year"))⟩,
    Event.message 22000 ⟨"m3", "1", false, Command.adduser (some ("9", "1year"))⟩,
    Event.message 30000 ⟨"m4", "1", false, Command.watch "alice"⟩,
    Event.watchChecked 0 (AxiosOutcome.response 200 (ResponseData.text "profile")),
    Event.message 31000 ⟨"m5", "7", false, Command.watch "alice"⟩,
    Event.watchChecked 0 (AxiosOutcome.response 200 (ResponseData.text "profile")),
    Event.message 32000 ⟨"m6", "8", false, Command.watch "alice"⟩,
    Event.watchChecked 0 (AxiosOutcome.response 200 (ResponseData.text "profile")),
    Event.message 33000 ⟨"m7", "9", false, Command.watch "alice"⟩,
    Event.watchChecked 0 (AxiosOutcome.response 200 (ResponseData.text "profile")),
    Event.tick,
    Event.sweepResume 0 604803000 (AxiosOutcome.failure ""),
    Event.sweepResume 0 604815000 (AxiosOutcome.failure "")]

/-- The AVAILABLE branch after `notifyTrace`: the probe of `"alice"` is answered 404 at
604820000; the fetch of `"7"` resolves at 604820001 and the send settles at 604820300;
the fetch of `"8"` resolves at 604820301 and the send settles at 604820600; the fetch of
`"9"` is rejected at 604820700. -/
def notifyBranch : List Event :=
  [Event.sweepResume 0 604820000 (AxiosOutcome.response 404 (ResponseData.text "")),
    Event.sweepResume 0 604820001 (AxiosOutcome.failure ""),
    Event.sweepResume 0 604820300 (AxiosOutcome.failure ""),
    Event.sweepResume 0 604820301 (AxiosOutcome.failure ""),
    Event.sweepResume 0 604820600 (AxiosOutcome.failure ""),
    Event.sweepFetchRejected 0 604820700]

/-- The admin grants `"7"` one week at time 0 (expiry 604800000); the admin, who has no
subscription, and `"7"` watch `"alice"`; both initial checks find the name taken; a sweep
starts, ends its delays and marks `"alice"` as checking. -/
def availableTrace : List Event :=
  [Event.message 0 ⟨"m1", "1", false, Command.adduser (some ("7", "1week"))⟩,
    Event.message 10 ⟨"m2", "1", false, Command.watch "alice"⟩,
    Event.watchChecked 0 (AxiosOutcome.response 200 (ResponseData.text "profile")),
    Event.message 20 ⟨"m3", "7", false, Command.watch "alice"⟩,
    Event.watchChecked 0 (AxiosOutcome.response 200 (ResponseData.text "profile")),
    Event.tick,
    Event.sweepResume 0 30 (AxiosOutcome.failure ""),
    Event.sweepResume 0 40 (AxiosOutcome.failure "")]

/-- Subscriber `"7"` gets a subscription and watches `"alice"`, the initial check finds
the name taken; a sweep starts and, after its initial delay, waits out the random delay
before `"alice"`; meanwhile `"7"` unwatches `"alice"`; the sweep then marks `"alice"`. -/
def ghostTrace : List Event :=
  [Event.message 0 ⟨"m1", "1", false, Command.adduser (some ("7", "1week"))⟩,
    Event.message 10 ⟨"m2", "7", false, Command.watch "alice"⟩,
    Event.watchChecked 0 (AxiosOutcome.response 200 (ResponseData.text "profile")),
    Event.tick,
    Event.sweepResume 0 20 (AxiosOutcome.failure ""),
    Event.message 30 ⟨"m3", "7", false, Command.unwatch "alice"⟩,
    Event.sweepResume 0 40 (AxiosOutcome.failure "")]

/-! ## Elapsed-time formatting (lines 604-619) -/

/-- Lines 604-619 of `my-bot.js` (the same function is at lines 222-237 of `bot.js`).
`Math.floor(x / d)` for a positive `d` is `x / d` on `Int` (rounding down), `%` is the
remainder with the sign of the dividend, and a template literal prints an integer in
decimal.  The code computes on doubles: for an integer `ms` with `|ms| < 2 ^ 53` every
quotient here is the one the code computes; from `2 ^ 53` on the code rounds and this
definition does not follow it. -/
def formatTime (ms : Int) : String :=
  let seconds := ms / 1000
  let minutes := seconds / 60
  let hours := minutes / 60
  let days := hours / 24
  if days > 0 then
    toString days ++ "d " ++ toString (Int.tmod hours 24) ++ "h " ++
      toString (Int.tmod minutes 60) ++ "m"
  else if hours > 0 then
    toString hours ++ "h " ++ toString (Int.tmod minutes 60) ++ "m " ++
      toString (Int.tmod seconds 60) ++ "s"
  else if minutes > 0 then
    toString minutes ++ "m " ++ toString (Int.tmod seconds 60) ++ "s"
  else toString seconds ++ "s"

/-! ## Probes in flight -/

/-- A sweep in this phase is awaiting `checkInstagramUsername(username)`. -/
def isProbing (username : String) : SweepPhase → Bool
  | SweepPhase.probing _ u _ => u == username
  | _ => false

/-- The number of sweeps whose probe of `username` is in flight. -/
def probesInFlight (sys : System) (username : String) : Nat :=
  sys.sweeps.countP (isProbing username)

/-! ## Example runs with a sweep in flight (times in milliseconds) -/

/-- Subscriber `"7"` is granted a week and watches `"a"`, `"b"` and `"c"` (all initial
checks find the names taken).  The cron tick at 60000 starts a sweep; it ends its initial
delay at 63000, its random delay before `"a"` at 80000, marks `"a"` and awaits the
probe.  At 81000 `"7"` unwatches `"a"`, at 82000 `"7"` watches `"d"` (initial check:
taken).  At 90000 the probe of `"a"` ends TAKEN. -/
def slotTrace : List Event :=
  [Event.message 0 ⟨"m1", "1", false, Command.adduser (some ("7", "1week"))⟩,
    Event.message 1000 ⟨"m2", "7", false, Command.watch "a"⟩,
    Event.watchChecked 0 (AxiosOutcome.response 200 (ResponseData.text "profile")),
    Event.message 2000 ⟨"m3", "7", false, Command.watch "b"⟩,
    Event.watchChecked 0 (AxiosOutcome.response 200 (ResponseData.text "profile")),
    Event.message 3000 ⟨"m4", "7", false, Command.watch "c"⟩,
    Event.watchChecked 0 (AxiosOutcome.response 200 (ResponseData.text "profile")),
    Event.tick,
    Event.sweepResume 0 63000 (AxiosOutcome.failure ""),
    Event.sweepResume 0 80000 (AxiosOutcome.failure ""),
    Event.message 81000 ⟨"m5", "7", false, Command.unwatch "a"⟩,
    Event.message 82000 ⟨"m6", "7", false, Command.watch "d"⟩,
    Event.watchChecked 0 (AxiosOutcome.response 200 (ResponseData.text "profile")),
    Event.sweepResume 0 90000 (AxiosOutcome.response 200 (ResponseData.text "profile"))]

/-- Subscriber `"7"` watches `"a"` and `"b"`.  Sweep 0 (tick at 60000) is slow: random
delays of 29 s, a probe of `"a"` that takes 14 s; it marks `"b"` at 135000 and awaits the
probe.  Sweep 1 (tick at 120000) is fast: random delays of 10 s, a probe of `"a"` that
takes half a second; it reaches `"b"` at 133500, while sweep 0 is still in its random
delay before `"b"`, and starts its own random delay, which ends at 143500. -/
def overlapTrace : List Event :=
  [Event.message 0 ⟨"m1", "1", false, Command.adduser (some ("7", "1week"))⟩,
    Event.message 1000 ⟨"m2", "7", false, Command.watch "a"⟩,
    Event.watchChecked 0 (AxiosOutcome.response 200 (ResponseData.text "profile")),
    Event.message 2000 ⟨"m3", "7", false, Command.watch "b"⟩,
    Event.watchChecked 0 (AxiosOutcome.response 200 (ResponseData.text "profile")),
    Event.tick,
    Event.sweepResume 0 63000 (AxiosOutcome.failure ""),
    Event.sweepResume 0 92000 (AxiosOutcome.failure ""),
    Event.sweepResume 0 106000 (AxiosOutcome.response 200 (ResponseData.text "profile")),
    Event.tick,
    Event.sweepResume 1 123000 (AxiosOutcome.failure ""),
    Event.sweepResume 1 133000 (AxiosOutcome.failure ""),
    Event.sweepResume 1 133500 (AxiosOutcome.response 200 (ResponseData.text "profile")),
    Event.sweepResume 0 135000 (AxiosOutcome.failure "")]

/-- Subscribers `"7"` and `"8"` are granted a week; `"7"` watches `"a"` (initial check:
taken).  The sweep started by the tick at 60000 marks `"a"` at 80000 and awaits the
probe. -/
def lostWatchPrefix : List Event :=
  [Event.message 0 ⟨"m1", "1", false, Command.adduser (some ("7", "1week"))⟩,
    Event.message 500 ⟨"m2", "1", false, Command.adduser (some ("8", "1week"))⟩,
    Event.message 1000 ⟨"m3", "7", false, Command.watch "a"⟩,
    Event.watchChecked 0 (AxiosOutcome.response 200 (ResponseData.text "profile")),
    Event.tick,
    Event.sweepResume 0 63000 (AxiosOutcome.failure ""),
    Event.sweepResume 0 80000 (AxiosOutcome.failure "")]

/-- The message by which `"8"` watches `"a"` at 85000, while the probe is in flight. -/
def lostWatchMessage : Event :=
  Event.message 85000 ⟨"m4", "8", false, Command.watch "a"⟩

/-- Every array object holds at most one entry per subscriber. -/
def DistinctHeap (heap : Nat → List MonitorEntry) : Prop :=
  ∀ r, ((heap r).map (fun e => e.userId)).Nodup

/-! ## Lemmas on the `Map` model -/

namespace JsMap

theorem get_set_self {V : Type} (m : JsMap V) (k : String) (v : V) :
    get (set m k v) k = some v := by
  induction m with
  | nil => simp [set, get]
  | cons slot t ih =>
    cases slot with
    | none => simpa [set, get] using ih
    | some kv =>
      obtain ⟨k', v'⟩ := kv
      by_cases h : k' = k
      · simp [set, get, h]
      · simp [set, get, h, ih]

theorem get_set_ne {V : Type} (m : JsMap V) (k k' : String) (v : V) (hne : k' ≠ k) :
    get (set m k v) k' = get m k' := by
  induction m with
  | nil => simp [set, get, hne.symm]
  | cons slot t ih =>
    cases slot with
    | none => simpa [set, get] using ih
    | some kv =>
      obtain ⟨k1, v1⟩ := kv
      by_cases h : k1 = k
      · subst h
        simp [set, get, hne.symm]
      · by_cases h2 : k1 = k'
        · subst h2
          simp [set, get, h]
        · simp [set, get, h, h2, ih]

theorem get_delete_self {V : Type} (m : JsMap V) (k : String) : get (delete m k) k = none := by
  induction m with
  | nil => simp [delete, get]
  | cons slot t ih =>
    cases slot with
    | none => simpa [delete, get] using ih
    | some kv =>
      obtain ⟨k', v'⟩ := kv
      by_cases h : k' = k
      · simp [delete, get, h, ih]
      · simp [delete, get, h, ih]

theorem get_delete_ne {V : Type} (m : JsMap V) (k k' : String) (hne : k' ≠ k) :
    get (delete m k) k' = get m k' := by
  induction m with
  | nil => simp [delete, get]
  | cons slot t ih =>
    cases slot with
    | none => simpa [delete, get] using ih
    | some kv =>
      obtain ⟨k1, v1⟩ := kv
      by_cases h : k1 = k
      · subst h
        simp [delete, get, hne.symm, ih]
      · by_cases h2 : k1 = k'
        · subst h2
          simp [delete, get, h]
        · simp [delete, get, h, h2, ih]

theorem set_eq_self {V : Type} (m : JsMap V) (k : String) (v : V) (h : get m k = some v) :
    set m k v = m := by
  induction m with
  | nil => simp [get] at h
  | cons slot t ih =>
    cases slot with
    | none =>
      simp only [get] at h
      simp [set, ih h]
    | some kv =>
      obtain ⟨k', v'⟩ := kv
      by_cases hk : k' = k
      · subst hk
        simp only [get, if_true] at h
        simp only [Option.some.injEq] at h
        simp [set, h]
      · simp only [get, hk, if_false] at h
        simp [set, hk, ih h]

theorem mem_entries_of_get {V : Type} (m : JsMap V) (k : String) (v : V)
    (h : get m k = some v) : (k, v) ∈ entries m := by
  induction m with
  | nil => simp [get] at h
  | cons slot t ih =>
    cases slot with
    | none =>
      simp only [get] at h
      simpa [entries] using ih h
    | some kv =>
      obtain ⟨k', v'⟩ := kv
      by_cases hk : k' = k
      · subst hk
        simp only [get, if_true, Option.some.injEq] at h
        simp [entries, h]
      · simp only [get, hk, if_false] at h
        have := ih h
        simp only [entries] at this
        simp [entries, this]

theorem entries_delete {V : Type} (m : JsMap V) (k : String) :
    entries (delete m k) = (entries m).filter (fun kv => decide (kv.1 ≠ k)) := by
  induction m with
  | nil => simp [delete, entries]
  | cons slot t ih =>
    cases slot with
    | none => simpa [delete, entries] using ih
    | some kv =>
      obtain ⟨k', v'⟩ := kv
      simp only [entries] at ih
      by_cases hk : k' = k
      · simp [delete, entries, hk, ih]
      · simp [delete, entries, hk, ih]

theorem entries_set_of_get_none {V : Type} (m : JsMap V) (k : String) (v : V)
    (h : get m k = none) : entries (set m k v) = entries m ++ [(k, v)] := by
  induction m with
  | nil => simp [set, entries]
  | cons slot t ih =>
    cases slot with
    | none =>
      simp only [get] at h
      simpa [set, entries] using ih h
    | some kv =>
      obtain ⟨k', v'⟩ := kv
      by_cases hk : k' = k
      · simp [get, hk] at h
      · simp only [get, hk, if_false] at h
        have := ih h
        simp only [entries] at this
        simp [set, entries, hk, this]

end JsMap

/-! ## Lemmas on the registry operations -/

theorem entriesOf_eq_some (st : Store) (u : String) (l : List MonitorEntry) :
    st.entriesOf u = some l ↔
      ∃ r, JsMap.get st.monitoredUsernames u = some r ∧ st.heap r = l := by
  simp [Store.entriesOf]

/-! ## C1: a successful watch appends one entry and is rejected when repeated -/

/-- C1: when the registry update of `!watch` succeeds for `(u, s)`, the array under `u`
is the former array (none counts as empty) with one new entry appended last, of status
`monitoring` and subscriber `s`, so its length grows by exactly 1; and a directly
following update for `(u, s)`, at any time, returns `AlreadyWatching` and leaves the
store as it is. -/
theorem addWatch_added_then_already (now : Int) (u s : String) (st st' : Store)
    (h : addWatch now u s st = (WatchResult.Added, st')) :
    st'.entriesOf u = some (((st.entriesOf u).getD []) ++
        [{ startTime := now, userId := s, status := Status.monitoring, lastChecked := now }]) ∧
      ((st'.entriesOf u).getD []).length = ((st.entriesOf u).getD []).length + 1 ∧
      ∀ now2 : Int, addWatch now2 u s st' = (WatchResult.AlreadyWatching, st') := by
  have key : st'.entriesOf u = some (((st.entriesOf u).getD []) ++
      [{ startTime := now, userId := s, status := Status.monitoring, lastChecked := now }]) := by
    unfold addWatch at h
    cases hg : JsMap.get st.monitoredUsernames u with
    | none =>
      simp only [hg, Option.isSome_none, Bool.false_eq_true, if_false] at h
      split at h
      · simp at h
      · simp only [Prod.mk.injEq, true_and] at h
        subst h
        simp [Store.entriesOf, Store.alloc, hg, JsMap.get_set_self]
    | some r =>
      simp only [hg] at h
      split at h
      · simp at h
      · split at h
        · simp at h
        · simp only [Prod.mk.injEq, true_and] at h
          subst h
          simp [Store.entriesOf, hg, JsMap.get_set_self]
  refine ⟨key, ?_, ?_⟩
  · rw [key]
    simp
  · intro now2
    obtain ⟨r, hr, hheap⟩ := (entriesOf_eq_some st' u _).mp key
    unfold addWatch
    simp only [hr, hheap]
    rw [if_pos]
    simp [List.find?_isSome]

/-- Witness of C1: the first watch of `"alice"` by `"7"` on the empty store succeeds, the
array under `"alice"` is then the one new entry, and a second watch at time 6 is refused. -/
theorem addWatch_added_then_already_witness :
    (addWatch 5 "alice" "7" Store.init).1 = WatchResult.Added ∧
      (addWatch 5 "alice" "7" Store.init).2.entriesOf "alice" =
        some [⟨5, "7", Status.monitoring, 5⟩] ∧
      (addWatch 6 "alice" "7" (addWatch 5 "alice" "7" Store.init).2).1 =
        WatchResult.AlreadyWatching :=
  ⟨by decide,
    (addWatch_added_then_already 5 "alice" "7" Store.init (addWatch 5 "alice" "7" Store.init).2
      (by rfl)).1,
    congrArg Prod.fst
      ((addWatch_added_then_already 5 "alice" "7" Store.init
        (addWatch 5 "alice" "7" Store.init).2 (by rfl)).2.2 6)⟩

/-! ## C2: the slot limit -/

/-- C2: when subscriber `s` holds 3 or more entries over all usernames and has no entry
under `u`, the registry update of `!watch` returns `SlotLimitExceeded` and the store after
the call is the store before it. -/
theorem addWatch_slot_limit (now : Int) (u s : String) (st : Store)
    (hcount : 3 ≤ userMonitorCount st s)
    (hnot : ∀ e ∈ (st.entriesOf u).getD [], e.userId ≠ s) :
    addWatch now u s st = (WatchResult.SlotLimitExceeded, st) := by
  unfold addWatch
  have hfind : (match JsMap.get st.monitoredUsernames u with
      | some r => (st.heap r).find? (fun (data : MonitorEntry) => data.userId == s)
      | none => none).isSome = false := by
    cases hg : JsMap.get st.monitoredUsernames u with
    | none => rfl
    | some r =>
      simp only [Store.entriesOf, hg, Option.map_some', Option.getD_some] at hnot
      simp only [Bool.eq_false_iff, ne_eq, List.find?_isSome, not_exists, not_and]
      intro x hx
      simpa using hnot x hx
  simp only [hfind, Bool.false_eq_true, if_false]
  rw [if_pos hcount]

/-- Witness of C2: with `"a"`, `"b"`, `"c"` watched by `"7"`, a watch of `"d"` is refused. -/
theorem addWatch_slot_limit_witness :
    3 ≤ userMonitorCount exampleFull "7" ∧
      (∀ e ∈ (exampleFull.entriesOf "d").getD [], e.userId ≠ "7") ∧
      addWatch 9 "d" "7" exampleFull = (WatchResult.SlotLimitExceeded, exampleFull) :=
  ⟨by decide, by decide, addWatch_slot_limit 9 "d" "7" exampleFull (by decide) (by decide)⟩

/-! ## C3: unwatch -/

theorem findIndex_eq_none {α : Type} (p : α → Bool) (l : List α)
    (h : ∀ x ∈ l, p x = false) : findIndex p l = none := by
  induction l with
  | nil => rfl
  | cons a t ih =>
    have ha : p a = false := h a (List.mem_cons_self a t)
    have ht := ih (fun x hx => h x (List.mem_cons_of_mem a hx))
    simp [findIndex, ha, ht]

theorem findIndex_append {α : Type} (p : α → Bool) (l1 l2 : List α) (e : α)
    (h1 : ∀ x ∈ l1, p x = false) (he : p e = true) :
    findIndex p (l1 ++ e :: l2) = some l1.length := by
  induction l1 with
  | nil => simp [findIndex, he]
  | cons a t ih =>
    have ha : p a = false := h1 a (List.mem_cons_self a t)
    have ht := ih (fun x hx => h1 x (List.mem_cons_of_mem a hx))
    simp [findIndex, ha, ht]

theorem eraseIdx_append_length {α : Type} (l1 l2 : List α) (e : α) :
    (l1 ++ e :: l2).eraseIdx l1.length = l1 ++ l2 := by
  induction l1 with
  | nil => simp
  | cons a t ih => simp [ih]

theorem ref_eq_iff_key_eq (st : Store) (hwf : st.WellFormed) (u : String) (r : Nat)
    (hg : JsMap.get st.monitoredUsernames u = some r) (kv : String × Nat)
    (hkv : kv ∈ JsMap.entries st.monitoredUsernames) : kv.1 = u ↔ kv.2 = r := by
  have hu := JsMap.mem_entries_of_get _ _ _ hg
  constructor
  · intro h
    have := List.inj_on_of_nodup_map hwf.1 hkv hu h
    rw [this]
  · intro h
    have := List.inj_on_of_nodup_map hwf.2.1 hkv hu h
    rw [this]

/-- C3: on a well-formed store, the registry update of `!unwatch` for `(u, s)` returns
`NotWatching` and changes nothing when no entry under `u` belongs to `s`; when the array
under `u` is `l1 ++ e :: l2` with `e` the first entry of `s`, it returns `Removed`, the
array under `u` becomes `l1 ++ l2`, every other username keeps its array and its place,
and `u` is no longer a key when `l1 ++ l2` is empty. -/
theorem removeWatch_spec (u s : String) (st : Store) (hwf : st.WellFormed) :
    ((∀ e ∈ (st.entriesOf u).getD [], e.userId ≠ s) →
        removeWatch u s st = (UnwatchResult.NotWatching, st)) ∧
      (∀ (l1 l2 : List MonitorEntry) (e : MonitorEntry),
        st.entriesOf u = some (l1 ++ e :: l2) → e.userId = s → (∀ x ∈ l1, x.userId ≠ s) →
        ∃ st', removeWatch u s st = (UnwatchResult.Removed, st') ∧
          st'.registry =
            (if l1 ++ l2 = [] then st.registry.filter (fun kv => decide (kv.1 ≠ u))
              else st.registry.map (fun kv => if kv.1 = u then (u, l1 ++ l2) else kv)) ∧
          (l1 ++ l2 = [] → JsMap.has st'.monitoredUsernames u = false) ∧
          (l1 ++ l2 ≠ [] → st'.entriesOf u = some (l1 ++ l2)) ∧
          ∀ u', u' ≠ u → st'.entriesOf u' = st.entriesOf u') := by
  constructor
  · intro hnot
    unfold removeWatch
    cases hg : JsMap.get st.monitoredUsernames u with
    | none => rfl
    | some r =>
      simp only [Store.entriesOf, hg, Option.map_some', Option.getD_some] at hnot
      have : findIndex (fun data => data.userId == s) (st.heap r) = none :=
        findIndex_eq_none _ _ (fun x hx => by simpa using hnot x hx)
      simp [this]
  · intro l1 l2 e hl he hl1
    obtain ⟨r, hg, hheap⟩ := (entriesOf_eq_some st u _).mp hl
    have hidx : findIndex (fun data => data.userId == s) (st.heap r) = some l1.length := by
      rw [hheap]
      exact findIndex_append _ _ _ _ (fun x hx => by simpa using hl1 x hx) (by simpa using he)
    have hers : (st.heap r).eraseIdx l1.length = l1 ++ l2 := by
      rw [hheap]
      exact eraseIdx_append_length l1 l2 e
    have hother : ∀ kv ∈ JsMap.entries st.monitoredUsernames, kv.1 ≠ u →
        Function.update st.heap r (l1 ++ l2) kv.2 = st.heap kv.2 := by
      intro kv hkv hne
      have hr : kv.2 ≠ r := fun h => hne ((ref_eq_iff_key_eq st hwf u r hg kv hkv).mpr h)
      simp [Function.update, hr]
    have hframe : ∀ (u' : String) (m' : JsMap Nat), u' ≠ u →
        JsMap.get m' u' = JsMap.get st.monitoredUsernames u' →
        (JsMap.get m' u').map (Function.update st.heap r (l1 ++ l2)) =
          (JsMap.get st.monitoredUsernames u').map st.heap := by
      intro u' m' hne hm
      rw [hm]
      cases hg' : JsMap.get st.monitoredUsernames u' with
      | none => rfl
      | some r' =>
        have := hother (u', r') (JsMap.mem_entries_of_get _ _ _ hg') hne
        simpa using this
    by_cases hempty : l1 ++ l2 = []
    · refine ⟨{ st with
          heap := Function.update st.heap r (l1 ++ l2)
          monitoredUsernames := JsMap.delete st.monitoredUsernames u }, ?_, ?_, ?_, ?_, ?_⟩
      · unfold removeWatch
        simp [hg, hidx, hers, hempty]
      · rw [if_pos hempty]
        simp only [Store.registry, JsMap.entries_delete, List.filter_map]
        apply List.map_congr_left
        intro kv hkv
        have hne : kv.1 ≠ u := by simpa using (List.mem_filter.mp hkv).2
        rw [hother kv (List.mem_filter.mp hkv).1 hne]
      · intro _
        simp [JsMap.has, JsMap.get_delete_self]
      · intro h
        exact absurd hempty h
      · intro u' hne
        exact hframe u' _ hne (JsMap.get_delete_ne _ _ _ hne)
    · refine ⟨{ st with
          heap := Function.update st.heap r (l1 ++ l2)
          monitoredUsernames := JsMap.set st.monitoredUsernames u r }, ?_, ?_, ?_, ?_, ?_⟩
      · unfold removeWatch
        have hlen : ¬ (l1 ++ l2).length = 0 := by
          simpa [List.length_eq_zero] using hempty
        simp only [hg, hidx, hers]
        rw [if_neg hlen]
      · rw [if_neg hempty]
        simp only [Store.registry, JsMap.set_eq_self _ _ _ hg, List.map_map]
        apply List.map_congr_left
        intro kv hkv
        by_cases hk : kv.1 = u
        · have hr := (ref_eq_iff_key_eq st hwf u r hg kv hkv).mp hk
          rw [hr, Function.update_same]
          simp [hk]
        · simp [hk, hother kv hkv hk]
      · intro h
        exact absurd h hempty
      · intro _
        simp [Store.entriesOf, JsMap.get_set_self]
      · intro u' hne
        exact hframe u' _ hne (JsMap.get_set_ne _ _ _ _ hne)

/-- Witness of C3: in a store where `"7"` and `"8"` watch `"alice"` and `"7"` watches
`"bob"`, an unwatch of `"carol"` by `"7"` changes nothing and an unwatch of `"alice"` by
`"7"` leaves `"8"` under `"alice"` and `"bob"` as it was. -/
theorem removeWatch_spec_witness :
    exampleShared.WellFormed ∧
      (removeWatch "carol" "7" exampleShared).1 = UnwatchResult.NotWatching ∧
      (removeWatch "alice" "7" exampleShared).1 = UnwatchResult.Removed ∧
      (removeWatch "alice" "7" exampleShared).2.registry =
        [("alice", [⟨2, "8", Status.monitoring, 2⟩]), ("bob", [⟨3, "7", Status.monitoring, 3⟩])] := by
  have hwf : exampleShared.WellFormed := by
    unfold Store.WellFormed MapWF
    decide
  obtain ⟨st', h1, h2, -⟩ :=
    (removeWatch_spec "alice" "7" exampleShared hwf).2 [] [⟨2, "8", Status.monitoring, 2⟩]
      ⟨1, "7", Status.monitoring, 1⟩ (by decide) rfl (by simp)
  refine ⟨hwf,
    congrArg Prod.fst ((removeWatch_spec "carol" "7" exampleShared hwf).1 (by decide)), ?_, ?_⟩
  · rw [h1]
  · rw [h1, h2]
    decide

/-! ## C4: the subscription gate -/

theorem gate_pass_iff (cfg : Config) (subs : JsMap Subscription) (s : String) (now : Int) :
    subscriptionGate cfg subs s now = GateResult.pass ↔
      (some s = cfg.ADMIN_ID ∨ ∃ sub, JsMap.get subs s = some sub ∧ now ≤ sub.expiryDate) := by
  unfold subscriptionGate JsMap.has
  cases hg : JsMap.get subs s with
  | none =>
    by_cases ha : some s = cfg.ADMIN_ID
    · simp [ha]
    · simp [ha]
  | some sub =>
    by_cases ha : some s = cfg.ADMIN_ID
    · simp [ha]
    · by_cases hlt : sub.expiryDate < now
      · simp [ha, hlt]
      · simp [ha, hlt, not_lt.mp hlt]

/-- C4 as stated fails at `expiry = now`: a subscriber `"7"` who is not the admin and whose
subscription expires exactly at `now = 100` is let through by the gate, although the
spec's `isActive` is false there, and the `!watch` of that message changes the registry. -/
theorem subscriptionGate_boundary_counterexample :
    subscriptionGate ⟨some "1"⟩ [some ("7", ⟨100, "1", 0⟩)] "7" 100 = GateResult.pass ∧
      isActiveSpec ⟨some "1"⟩ [some ("7", ⟨100, "1", 0⟩)] "7" 100 = false ∧
      (messageCreate ⟨some "1"⟩ 100 ⟨"m1", "7", false, Command.watch "alice"⟩
          { Store.init with userSubscriptions := [some ("7", ⟨100, "1", 0⟩)] }).1.registry =
        [("alice", [⟨100, "7", Status.monitoring, 100⟩])] := by
  decide

/-- C4, amended: the gate lets a message of author `s` at time `now` through if and only
if `s` is the admin identity or a subscription for `s` exists whose expiry is not before
`now` (`expiry ≥ now`); and a message the gate rejects leaves the registry (map and
arrays) and the subscription store unchanged and starts no handler. -/
theorem subscriptionGate_pass_iff (cfg : Config) (now : Int) (m : Message) (st : Store) :
    (subscriptionGate cfg st.userSubscriptions m.authorId now = GateResult.pass ↔
        (some m.authorId = cfg.ADMIN_ID ∨
          ∃ sub, JsMap.get st.userSubscriptions m.authorId = some sub ∧ now ≤ sub.expiryDate)) ∧
      (subscriptionGate cfg st.userSubscriptions m.authorId now ≠ GateResult.pass →
        (messageCreate cfg now m st).1.monitoredUsernames = st.monitoredUsernames ∧
          (messageCreate cfg now m st).1.heap = st.heap ∧
          (messageCreate cfg now m st).1.userSubscriptions = st.userSubscriptions ∧
          (messageCreate cfg now m st).2.2 = none) := by
  constructor
  · exact gate_pass_iff cfg st.userSubscriptions m.authorId now
  · intro hrej
    unfold messageCreate
    split_ifs with hb hd
    · exact ⟨rfl, rfl, rfl, rfl⟩
    · exact ⟨rfl, rfl, rfl, rfl⟩
    · dsimp only
      cases hgate : subscriptionGate cfg st.userSubscriptions m.authorId now with
      | pass => exact absurd hgate hrej
      | noSubscription => exact ⟨rfl, rfl, rfl, rfl⟩
      | expired => exact ⟨rfl, rfl, rfl, rfl⟩

/-! ## C5: classification by the prober -/

theorem checkInstagramUsernameTry_text (status : Nat) (body : String)
    (hv : validateStatus status = true) :
    checkInstagramUsernameTry (AxiosOutcome.response status (ResponseData.text body)) =
      Except.ok
        { status :=
            if (includes body "\"user\":null" || includes body "Sorry, this page isn't available" ||
                includes body "The link you followed may be broken" ||
                includes body "Page Not Found" || includes body "login" || status == 404) = true
            then 404 else 200,
          data := some (ResponseData.text body) } := by
  simp only [checkInstagramUsernameTry, axiosGet, hv, if_true, dataIncludes]
  cases includes body "\"user\":null" <;>
  cases includes body "Sorry, this page isn't available" <;>
  cases includes body "The link you followed may be broken" <;>
  cases includes body "Page Not Found" <;>
  cases includes body "login" <;>
  simp [jsOr]

/-- C5 fails on the code for a fetched response whose `response.data` is not a string:
for status 404 (or any accepted status) and a body that axios has parsed into a JSON
object, number, boolean or `null`, the call `responseText.includes` at line 497 throws
before the status is tested at line 502, the `catch` block takes over and the result is
status 200 (TAKEN), with the error logged.  The rest of the claim holds: the function
always settles with a result; for an accepted status and a string body the returned
status is 404 if and only if the response status is 404 or the body includes a marker,
and 200 otherwise; for every other status and for a failed request it is 200. -/
theorem checkInstagramUsername_parsed_body (username : String) :
    checkInstagramUsername username (AxiosOutcome.response 404 ResponseData.value) =
        (Except.ok { status := 200, data := none },
          [Effect.adminLog (Text.apiError username "responseText.includes is not a function")]) ∧
      (∀ status : Nat, validateStatus status = true →
        (checkInstagramUsername username (AxiosOutcome.response status ResponseData.value)).1 =
            Except.ok { status := 200, data := none } ∧
          (checkInstagramUsername username (AxiosOutcome.response status ResponseData.null)).1 =
            Except.ok { status := 200, data := none }) ∧
      (∀ o : AxiosOutcome, ∃ result, (checkInstagramUsername username o).1 = Except.ok result) ∧
      (∀ status : Nat, validateStatus status = true ↔
        (200 ≤ status ∧ status < 300) ∨ status = 404) ∧
      (∀ (status : Nat) (body : String), validateStatus status = true →
        ∃ result,
          (checkInstagramUsername username
            (AxiosOutcome.response status (ResponseData.text body))).1 = Except.ok result ∧
          (result.status = 404 ↔ (status = 404 ∨ ∃ m ∈ markers, includes body m = true)) ∧
          (result.status = 404 ∨ result.status = 200)) ∧
      (∀ (status : Nat) (data : ResponseData), validateStatus status = false →
        (checkInstagramUsername username (AxiosOutcome.response status data)).1 =
          Except.ok { status := 200, data := none }) ∧
      (∀ message : String,
        (checkInstagramUsername username (AxiosOutcome.failure message)).1 =
          Except.ok { status := 200, data := none }) := by
  refine ⟨by rfl, ?_, ?_, ?_, ?_, ?_, ?_⟩
  · intro status hv
    simp [checkInstagramUsername, checkInstagramUsernameTry, axiosGet, hv, dataIncludes, jsOr]
  · intro o
    unfold checkInstagramUsername
    split
    · exact ⟨_, rfl⟩
    · exact ⟨_, rfl⟩
  · intro status
    simp [validateStatus]
  · intro status body hv
    simp only [checkInstagramUsername, checkInstagramUsernameTry_text status body hv]
    refine ⟨_, rfl, ?_, ?_⟩
    · simp only [markers, List.mem_cons, List.mem_singleton, exists_eq_or_imp, exists_eq_left,
        List.not_mem_nil, false_and, exists_false, or_false]
      by_cases h1 : includes body "\"user\":null" = true <;>
      by_cases h2 : includes body "Sorry, this page isn't available" = true <;>
      by_cases h3 : includes body "The link you followed may be broken" = true <;>
      by_cases h4 : includes body "Page Not Found" = true <;>
      by_cases h5 : includes body "login" = true <;>
      by_cases h6 : status = 404 <;>
      simp [h1, h2, h3, h4, h5, h6]
    · split <;> simp
  · intro status data hv
    simp [checkInstagramUsername, checkInstagramUsernameTry, axiosGet, hv]
  · intro message
    simp [checkInstagramUsername, checkInstagramUsernameTry, axiosGet]

/-! ## Lemmas on the sweep -/

theorem dmsOf_append (a b : List Effect) : dmsOf (a ++ b) = dmsOf a ++ dmsOf b := by
  simp [dmsOf, List.filterMap_append]

theorem dmsOf_sweepAdvance (st : Store) (pos : Nat) : dmsOf (sweepAdvance st pos).2 = [] := by
  unfold sweepAdvance
  split <;> simp [dmsOf]

theorem dmsOf_check (u : String) (o : AxiosOutcome) :
    dmsOf (checkInstagramUsername u o).2 = [] := by
  unfold checkInstagramUsername
  split <;> simp [dmsOf]

theorem check_ok (u : String) (o : AxiosOutcome) :
    ∃ result, (checkInstagramUsername u o).1 = Except.ok result := by
  unfold checkInstagramUsername
  split
  · exact ⟨_, rfl⟩
  · exact ⟨_, rfl⟩

theorem nextNotified_none (subs : JsMap Subscription) (now : Int) (l : List MonitorEntry)
    (i : Nat) (h : nextNotified subs now l i = none) : l.filter (entitled subs now) = [] := by
  induction l generalizing i with
  | nil => rfl
  | cons d t ih =>
    unfold nextNotified at h
    cases hg : JsMap.get subs d.userId with
    | none =>
      simp only [hg] at h
      simp [List.filter_cons, entitled, hg, ih (i + 1) h]
    | some sub =>
      simp only [hg] at h
      by_cases hlt : sub.expiryDate < now
      · simp only [hlt, if_true] at h
        simp [List.filter_cons, entitled, hg, hlt, ih (i + 1) h]
      · simp [hlt] at h

theorem nextNotified_some (subs : JsMap Subscription) (now : Int) (l : List MonitorEntry)
    (i j : Nat) (d : MonitorEntry) (h : nextNotified subs now l i = some (j, d)) :
    ∃ pre post, l = pre ++ d :: post ∧ j = i + pre.length ∧
      pre.filter (entitled subs now) = [] ∧ entitled subs now d = true := by
  induction l generalizing i with
  | nil => simp [nextNotified] at h
  | cons a t ih =>
    unfold nextNotified at h
    cases hg : JsMap.get subs a.userId with
    | none =>
      simp only [hg] at h
      obtain ⟨pre, post, h1, h2, h3, h4⟩ := ih (i + 1) h
      refine ⟨a :: pre, post, by simp [h1], by simp [h2]; omega, ?_, h4⟩
      simp [List.filter_cons, entitled, hg, h3]
    | some sub =>
      simp only [hg] at h
      by_cases hlt : sub.expiryDate < now
      · simp only [hlt, if_true] at h
        obtain ⟨pre, post, h1, h2, h3, h4⟩ := ih (i + 1) h
        refine ⟨a :: pre, post, by simp [h1], by simp [h2]; omega, ?_, h4⟩
        simp [List.filter_cons, entitled, hg, hlt, h3]
      · simp only [hlt, if_false, Option.some.injEq, Prod.mk.injEq] at h
        obtain ⟨h1, h2⟩ := h
        subst h1 h2
        exact ⟨[], t, rfl, rfl, rfl, by simp [entitled, hg, hlt]⟩

theorem drop_succ_of_drop_eq {α : Type} (l pre post : List α) (d : α) (i : Nat)
    (h : l.drop i = pre ++ d :: post) : l.drop (i + pre.length + 1) = post := by
  have : l.drop (i + pre.length + 1) = (l.drop i).drop (pre.length + 1) := by
    rw [List.drop_drop]
    congr 1
  rw [this, h]
  simp

/-- The notification loop from entry `i` on, run to its end with every fetch resolving:
each entitled entry takes two resumptions (the resolved fetch, the settled send); the
direct messages are those of the entitled entries in order, each with the clock reading
at which the loop reached the entry; at the end the username is deleted.  The entitlement
of the entries is assumed to be the same (`ent`) at every clock reading. -/
theorem sweepNotify_run (st : Store) (pos : Nat) (u : String) (r : Nat)
    (ent : MonitorEntry → Bool) (n : Nat) :
    ∀ (suffix : List MonitorEntry) (i : Nat) (now : Int) (ins : List (Int × AxiosOutcome)),
    suffix.length ≤ n → (st.heap r).drop i = suffix →
    ins.length = 2 * (suffix.filter ent).length →
    (∀ e ∈ st.heap r, entitled st.userSubscriptions now e = ent e) →
    (∀ x ∈ ins, ∀ e ∈ st.heap r, entitled st.userSubscriptions x.1 e = ent e) →
    dmsOf ((sweepNotify now st pos u r i).2.2 ++
        (sweepRun ins ((sweepNotify now st pos u r i).1, (sweepNotify now st pos u r i).2.1)).2) =
      List.zipWith (fun e t => (e.userId, Text.available u (t - e.startTime)))
        (suffix.filter ent) (now :: sendTimes ins) ∧
    JsMap.get (sweepRun ins ((sweepNotify now st pos u r i).1,
        (sweepNotify now st pos u r i).2.1)).1.1.monitoredUsernames u = none := by
  induction n with
  | zero =>
    intro suffix i now ins hlen hdrop hins _ _
    have hnil : suffix = [] := List.length_eq_zero.mp (Nat.le_zero.mp hlen)
    subst hnil
    have hins0 : ins = [] := List.length_eq_zero.mp (by simpa using hins)
    subst hins0
    simp [sweepNotify, hdrop, nextNotified, sweepRun, dmsOf_sweepAdvance, JsMap.get_delete_self]
  | succ n ih =>
    intro suffix i now ins hlen hdrop hins hnow hlater
    have hmem : ∀ x ∈ suffix, x ∈ st.heap r := by
      intro x hx
      rw [← hdrop] at hx
      exact List.mem_of_mem_drop hx
    have hcongr : ∀ l : List MonitorEntry, (∀ x ∈ l, x ∈ st.heap r) →
        l.filter ent = l.filter (entitled st.userSubscriptions now) := by
      intro l hl
      apply List.filter_congr
      intro x hx
      exact (hnow x (hl x hx)).symm
    cases hnext : nextNotified st.userSubscriptions now suffix i with
    | none =>
      have hf : suffix.filter ent = [] := by
        rw [hcongr suffix hmem]
        exact nextNotified_none _ _ _ _ hnext
      have hins0 : ins = [] := List.length_eq_zero.mp (by simpa [hf] using hins)
      subst hins0
      simp [sweepNotify, hdrop, hnext, hf, sweepRun, dmsOf_sweepAdvance, JsMap.get_delete_self]
    | some jd =>
      obtain ⟨j, d⟩ := jd
      obtain ⟨pre, post, h1, h2, h3, h4⟩ := nextNotified_some _ _ _ _ _ _ hnext
      have hpre : ∀ x ∈ pre, x ∈ st.heap r := fun x hx => hmem x (by simp [h1, hx])
      have hd : d ∈ st.heap r := hmem d (by simp [h1])
      have hfilter : suffix.filter ent = d :: post.filter ent := by
        rw [h1, List.filter_append, hcongr pre hpre, h3, List.nil_append, List.filter_cons,
          ← hnow d hd, h4]
        simp
      have hpost : (st.heap r).drop (j + 1) = post := by
        rw [h2]
        exact drop_succ_of_drop_eq _ _ _ _ _ (hdrop.trans h1)
      have hlen' : post.length ≤ n := by
        have : suffix.length = pre.length + (post.length + 1) := by simp [h1]
        omega
      rw [hfilter] at hins ⊢
      match ins, hins, hlater with
      | [], hins, _ => simp at hins
      | [_], hins, _ =>
        simp only [List.length_cons, List.length_nil] at hins
        omega
      | (f, fo) :: (t, so) :: rest, hins, hlater =>
        have hrest : rest.length = 2 * (post.filter ent).length := by
          simp only [List.length_cons] at hins
          omega
        have ht : ∀ e ∈ st.heap r, entitled st.userSubscriptions t e = ent e :=
          fun e he => hlater (t, so) (by simp) e he
        have hrestl : ∀ x ∈ rest, ∀ e ∈ st.heap r,
            entitled st.userSubscriptions x.1 e = ent e :=
          fun x hx e he => hlater x (by simp [hx]) e he
        have key := ih post (j + 1) t rest hlen' hpost hrest ht hrestl
        simp only [sweepNotify, hdrop, hnext, sweepRun, sweepResume, sendTimes,
          List.zipWith_cons_cons]
        simp only [sweepNotify] at key
        refine ⟨?_, key.2⟩
        simp only [dmsOf_append] at key ⊢
        simp only [dmsOf, List.filterMap_cons, List.filterMap_nil, List.nil_append,
          List.singleton_append, List.cons.injEq, true_and]
        simpa [dmsOf] using key.1

theorem heap_alloc_of_lt (st : Store) (arr : List MonitorEntry) (r : Nat)
    (h : r < st.nextRef) : (st.alloc arr).2.heap r = st.heap r := by
  have hne : r ≠ st.nextRef := Nat.ne_of_lt h
  simp [Store.alloc, Function.update, hne]

theorem ref_lt_of_get (st : Store) (hwf : st.WellFormed) (u : String) (r : Nat)
    (hg : JsMap.get st.monitoredUsernames u = some r) : r < st.nextRef :=
  hwf.2.2 (u, r) (JsMap.mem_entries_of_get _ _ _ hg)

/-! ## C6: notifications on AVAILABLE -/

/-- C6 as stated fails.  After `notifyTrace` the array under `"alice"` holds the entries
of the admin `"1"` (no subscription), of `"7"` (expiry 604820000), of `"8"` and of `"9"`
(expiry a year on), and the sweep awaits the probe.  The probe is answered 404 at
`now = 604820000` and the branch runs as in `notifyBranch`.  Two notifications are sent:
to `"7"`, who is not active in the spec's sense (the expiry is not strictly greater than
`now`), and to `"8"`, carrying the time elapsed until 604820300, when the loop reached the
entry, not until `now`.  None goes to the admin, who is active, and none to `"9"`, who is
active but whose `users.fetch` was rejected.  The claim asks for the three notifications
of the last conjunct. -/
theorem sweep_available_counterexample :
    (run exampleCfg notifyTrace System.init).store.entriesOf "alice" =
        some [⟨30000, "1", Status.checking, 604815000⟩, ⟨31000, "7", Status.checking, 604815000⟩,
          ⟨32000, "8", Status.checking, 604815000⟩, ⟨33000, "9", Status.checking, 604815000⟩] ∧
      (run exampleCfg notifyTrace System.init).sweeps = [SweepPhase.probing 1 "alice" 0] ∧
      dmsOf (runLog exampleCfg notifyBranch (run exampleCfg notifyTrace System.init)) =
        [("7", Text.available "alice" 604789000), ("8", Text.available "alice" 604788300)] ∧
      (run exampleCfg (notifyTrace ++ notifyBranch) System.init).sweeps =
        [SweepPhase.finished] ∧
      ([(⟨30000, "1", Status.checking, 604815000⟩ : MonitorEntry),
          ⟨31000, "7", Status.checking, 604815000⟩, ⟨32000, "8", Status.checking, 604815000⟩,
          ⟨33000, "9", Status.checking, 604815000⟩].filter
          (fun e => isActiveSpec exampleCfg
            (run exampleCfg notifyTrace System.init).store.userSubscriptions e.userId
            604820000)).map
          (fun e => (e.userId, Text.available "alice" (604820000 - e.startTime))) =
        [("1", Text.available "alice" 604790000), ("8", Text.available "alice" 604788000),
          ("9", Text.available "alice" 604787000)] := by
  decide

/-- C6, amended: let a sweep have taken the array `r` stored under `u` from the iterator,
mark it at `t1`, and resume at `now` with a probe result of status 404.  Let the branch
then run to its end with no other task in between and every `users.fetch` resolving:
`ins` holds the later resumptions, two per notified entry (the resolved fetch, the
settled send), each with its own clock reading.  Provided that at each of these clock
readings every entry under `u` is entitled exactly as it is at `now` (no subscription
passes its expiry meanwhile), and that no entry under `u` belongs to an admin identity
that lacks a subscription with `expiry ≥ now` (the test `entitled`), the direct messages
sent are exactly one notification per entry under `u` whose subscriber passes the
subscription gate at `now` (admin, or subscription with `expiry ≥ now`), in the order of
the entries, and none else.  The notification of an entry carries `t - startTime` of
that entry, `t` being the clock reading at which the loop reached it: `now` for the first
notified entry and, for each later one, the time at which the send of the notification
before it settled.  After these segments the branch has ended: `u` is no longer a key of
the registry. -/
theorem sweep_available_notifies (cfg : Config) (t1 now : Int) (o1 o : AxiosOutcome)
    (ins : List (Int × AxiosOutcome)) (st : Store) (pos : Nat) (u : String) (r : Nat)
    (hwf : st.WellFormed) (hg : JsMap.get st.monitoredUsernames u = some r)
    (havail : ∃ res, (checkInstagramUsername u o).1 = Except.ok res ∧ res.status = 404)
    (hadmin : ∀ e ∈ st.heap r, some e.userId = cfg.ADMIN_ID →
      entitled st.userSubscriptions now e = true)
    (hstable : ∀ x ∈ ins, ∀ e ∈ st.heap r,
      entitled st.userSubscriptions x.1 e = entitled st.userSubscriptions now e)
    (hlen : ins.length = 2 * ((st.heap r).filter (fun e =>
      decide (subscriptionGate cfg st.userSubscriptions e.userId now =
        GateResult.pass))).length) :
    dmsOf (sweepRun ((t1, o1) :: (now, o) :: ins) (st, SweepPhase.delaying pos u r)).2 =
      List.zipWith (fun e t => (e.userId, Text.available u (t - e.startTime)))
        ((st.heap r).filter (fun e =>
          decide (subscriptionGate cfg st.userSubscriptions e.userId now = GateResult.pass)))
        (now :: sendTimes ins) ∧
    JsMap.has (sweepRun ((t1, o1) :: (now, o) :: ins)
      (st, SweepPhase.delaying pos u r)).1.1.monitoredUsernames u = false := by
  have hfilter : (st.heap r).filter (fun e =>
        decide (subscriptionGate cfg st.userSubscriptions e.userId now = GateResult.pass)) =
      (st.heap r).filter (entitled st.userSubscriptions now) := by
    apply List.filter_congr
    intro e he
    have hiff := gate_pass_iff cfg st.userSubscriptions e.userId now
    cases hsub : JsMap.get st.userSubscriptions e.userId with
    | none =>
      have hna : ¬ some e.userId = cfg.ADMIN_ID := by
        intro ha
        have hent := hadmin e he ha
        simp [entitled, hsub] at hent
      have : ¬ subscriptionGate cfg st.userSubscriptions e.userId now = GateResult.pass := by
        rw [hiff]
        simp [hna, hsub]
      simp [entitled, hsub, this]
    | some sub =>
      by_cases hle : now ≤ sub.expiryDate
      · have : subscriptionGate cfg st.userSubscriptions e.userId now = GateResult.pass := by
          rw [hiff]
          exact Or.inr ⟨sub, hsub, hle⟩
        simp [entitled, hsub, this, hle]
      · have hna : ¬ some e.userId = cfg.ADMIN_ID := by
          intro ha
          have hent := hadmin e he ha
          simp only [entitled, hsub, Bool.not_eq_true', decide_eq_false_iff_not, not_lt] at hent
          exact hle hent
        have : ¬ subscriptionGate cfg st.userSubscriptions e.userId now = GateResult.pass := by
          rw [hiff]
          simp [hna, hsub, hle]
        simp [entitled, hsub, this, not_le.mp hle]
  rw [hfilter] at hlen ⊢
  obtain ⟨res, hres, h404⟩ := havail
  have hlt := ref_lt_of_get st hwf u r hg
  have hheap : (st.alloc (withStatus Status.checking t1 (st.heap r))).2.heap r = st.heap r :=
    heap_alloc_of_lt st _ r hlt
  have hheap' : Function.update st.heap st.nextRef (withStatus Status.checking t1 (st.heap r)) r =
      st.heap r := by
    simpa [Store.alloc] using hheap
  have key := sweepNotify_run
    { (st.alloc (withStatus Status.checking t1 (st.heap r))).2 with
      monitoredUsernames :=
        JsMap.set (st.alloc (withStatus Status.checking t1 (st.heap r))).2.monitoredUsernames u
          (st.alloc (withStatus Status.checking t1 (st.heap r))).1 }
    pos u r (entitled st.userSubscriptions now) (st.heap r).length (st.heap r) 0 now ins
    (le_refl _) (by simpa using hheap) hlen
    (fun e _ => rfl)
    (fun x hx e he => hstable x hx e (by simpa [Store.alloc, hheap'] using he))
  constructor
  · simp only [sweepRun, sweepResume, hres, h404, if_true, dmsOf_append, dmsOf_check,
      List.nil_append] at key ⊢
    simpa [dmsOf, Store.alloc] using key.1
  · simp only [sweepRun, sweepResume, hres, h404, if_true, JsMap.has] at key ⊢
    simpa [Store.alloc] using key.2

/-- Witness of C6: `"7"` (subscription until 100000) and `"8"` (until 200000) watch
`"alice"` since 1 and 2; the probe answers 404 at 50000; the send to `"7"` settles at
50300.  `"7"` is told 49999 and `"8"` is told 50298. -/
theorem sweep_available_notifies_witness :
    exampleTwoSubscribed.WellFormed ∧
      JsMap.get exampleTwoSubscribed.monitoredUsernames "alice" = some 0 ∧
      dmsOf (sweepRun [(40000, AxiosOutcome.failure ""),
          (50000, AxiosOutcome.response 404 (ResponseData.text "")),
          (50001, AxiosOutcome.failure ""), (50300, AxiosOutcome.failure ""),
          (50301, AxiosOutcome.failure ""), (50600, AxiosOutcome.failure "")]
          (exampleTwoSubscribed, SweepPhase.delaying 1 "alice" 0)).2 =
        [("7", Text.available "alice" 49999), ("8", Text.available "alice" 50298)] :=
  ⟨by unfold Store.WellFormed MapWF; decide, by decide,
    (sweep_available_notifies exampleCfg 40000 50000 (AxiosOutcome.failure "")
      (AxiosOutcome.response 404 (ResponseData.text ""))
      [(50001, AxiosOutcome.failure ""), (50300, AxiosOutcome.failure ""),
        (50301, AxiosOutcome.failure ""), (50600, AxiosOutcome.failure "")]
      exampleTwoSubscribed 1 "alice" 0
      (by unfold Store.WellFormed MapWF; decide) (by decide) ⟨_, rfl, rfl⟩ (by decide)
      (by decide) (by decide)).1.trans (by decide)⟩

/-! ## C7: TAKEN and ERROR revert the entries -/

/-- C7: let a sweep have taken the array `r` stored under `u` from the iterator, mark it
at `t1` and resume at `t2` with a probe outcome that is not AVAILABLE (TAKEN, or ERROR:
any outcome but a result of status 404), nothing else running in between.  Then `u` is a
key of the registry, its array is the former one entry by entry in the same order with
`startTime` and `userId` kept, `status` `monitoring` and `lastChecked = t2`; no direct
message is sent; and any other outcome that is not AVAILABLE leaves exactly the same
store. -/
theorem sweep_taken_or_error_reverts (t1 t2 : Int) (o1 o : AxiosOutcome) (st : Store)
    (pos : Nat) (u : String) (r : Nat)
    (hwf : st.WellFormed) (hg : JsMap.get st.monitoredUsernames u = some r)
    (hnot : ∀ res, (checkInstagramUsername u o).1 = Except.ok res → res.status ≠ 404) :
    (sweepRun [(t1, o1), (t2, o)] (st, SweepPhase.delaying pos u r)).1.1.entriesOf u =
        some ((st.heap r).map
          (fun e => ⟨e.startTime, e.userId, Status.monitoring, t2⟩)) ∧
      dmsOf (sweepRun [(t1, o1), (t2, o)] (st, SweepPhase.delaying pos u r)).2 = [] ∧
      ∀ o', (∀ res, (checkInstagramUsername u o').1 = Except.ok res → res.status ≠ 404) →
        (sweepRun [(t1, o1), (t2, o')] (st, SweepPhase.delaying pos u r)).1.1 =
          (sweepRun [(t1, o1), (t2, o)] (st, SweepPhase.delaying pos u r)).1.1 := by
  have hlt := ref_lt_of_get st hwf u r hg
  have hheap : (st.alloc (withStatus Status.checking t1 (st.heap r))).2.heap r = st.heap r :=
    heap_alloc_of_lt st _ r hlt
  have hstore : ∀ o', (∀ res, (checkInstagramUsername u o').1 = Except.ok res → res.status ≠ 404) →
      (sweepRun [(t1, o1), (t2, o')] (st, SweepPhase.delaying pos u r)).1.1 =
        sweepRevert t2
          { (st.alloc (withStatus Status.checking t1 (st.heap r))).2 with
            monitoredUsernames :=
              JsMap.set (st.alloc (withStatus Status.checking t1 (st.heap r))).2.monitoredUsernames
                u (st.alloc (withStatus Status.checking t1 (st.heap r))).1 } u r := by
    intro o' hnot'
    obtain ⟨res, hres⟩ := check_ok u o'
    have h404 : ¬ res.status = 404 := hnot' res hres
    simp [sweepRun, sweepResume, hres, h404]
  refine ⟨?_, ?_, ?_⟩
  · rw [hstore o hnot]
    simp only [sweepRevert, Store.entriesOf, JsMap.get_set_self, Option.map_some']
    simp only [Store.alloc, Function.update_same]
    simp only [Store.alloc] at hheap
    rw [hheap]
    simp [withStatus]
  · obtain ⟨res, hres⟩ := check_ok u o
    have h404 : ¬ res.status = 404 := hnot res hres
    simp only [sweepRun, sweepResume, hres, h404, if_false, dmsOf_append, dmsOf_check,
      dmsOf_sweepAdvance]
    simp [dmsOf]
  · intro o' hnot'
    rw [hstore o hnot, hstore o' hnot']

/-- Witness of C7: the sweep checks `"alice"` in `exampleShared`; the request fails (ERROR)
at time 60. -/
theorem sweep_taken_or_error_reverts_witness :
    exampleShared.WellFormed ∧
      JsMap.get exampleShared.monitoredUsernames "alice" = some 0 ∧
      (sweepRun [(50, AxiosOutcome.failure ""), (60, AxiosOutcome.failure "timeout")]
          (exampleShared, SweepPhase.delaying 1 "alice" 0)).1.1.entriesOf "alice" =
        some [⟨1, "7", Status.monitoring, 60⟩, ⟨2, "8", Status.monitoring, 60⟩] :=
  ⟨by unfold Store.WellFormed MapWF; decide, by decide,
    (sweep_taken_or_error_reverts 50 60 (AxiosOutcome.failure "") (AxiosOutcome.failure "timeout")
      exampleShared 1 "alice" 0 (by unfold Store.WellFormed MapWF; decide) (by decide)
      (fun res h => by
        cases h
        decide)).1.trans (by decide)⟩

/-! ## C8: the rate-limit branch -/

theorem sweepAdvance_shape (st : Store) (pos : Nat) :
    (∀ p u m, (sweepAdvance st pos).1 ≠ SweepPhase.cooling p u m) ∧
      ∀ e ∈ (sweepAdvance st pos).2, e = Effect.randomDelay 10000 30000 := by
  unfold sweepAdvance
  split <;> simp

theorem sweepNotify_shape (now : Int) (st : Store) (pos : Nat) (u : String) (r i : Nat) :
    (∀ p v m, (sweepNotify now st pos u r i).2.1 ≠ SweepPhase.cooling p v m) ∧
      ∀ e ∈ (sweepNotify now st pos u r i).2.2,
        e = Effect.randomDelay 10000 30000 ∨ ∃ uid, e = Effect.fetchUser uid := by
  unfold sweepNotify
  split
  · simp
  · refine ⟨(sweepAdvance_shape _ pos).1, ?_⟩
    intro e he
    exact Or.inl ((sweepAdvance_shape _ pos).2 e he)

theorem check_effects (u : String) (o : AxiosOutcome) :
    ∀ e ∈ (checkInstagramUsername u o).2, ∃ t, e = Effect.adminLog (Text.apiError u t) := by
  unfold checkInstagramUsername
  split <;> simp

/-- C8 fails on the code: whatever the probe outcome and wherever the sweep resumes, the
next suspension is never the ten-minute pause, and neither the rate-limit log nor the
ten-minute timer is among the effects.  For a response of status 429 in particular the
sweep does what it does for TAKEN: it reverts the entries, logs the API error raised
inside `checkInstagramUsername` and moves on to the next username. -/
theorem sweep_rate_limit_never_cools (now : Int) (o : AxiosOutcome) (st : Store)
    (phase : SweepPhase) :
    (∀ p u m, (sweepResume now o st phase).2.1 ≠ SweepPhase.cooling p u m) ∧
      Effect.adminLog Text.rateLimit ∉ (sweepResume now o st phase).2.2 ∧
      Effect.timer (10 * 60 * 1000) ∉ (sweepResume now o st phase).2.2 ∧
      ∀ (pos : Nat) (u : String) (r : Nat) (data : ResponseData),
        sweepResume now (AxiosOutcome.response 429 data) st (SweepPhase.probing pos u r) =
          (sweepRevert now st u r, (sweepAdvance (sweepRevert now st u r) pos).1,
            Effect.adminLog (Text.apiError u "Request failed with status code 429") ::
              (sweepAdvance (sweepRevert now st u r) pos).2) := by
  have hshape : ∀ (e : Effect),
      (e = Effect.randomDelay 10000 30000 ∨ (∃ uid t, e = Effect.dm uid t) ∨
        (∃ v t, e = Effect.adminLog (Text.apiError v t)) ∨
        (∃ v w t, e = Effect.adminLog (Text.becameAvailable v w t)) ∨
        (∃ v t, e = Effect.adminLog (Text.checkFailed v t)) ∨ (∃ v, e = Effect.probe v) ∨
        ∃ v, e = Effect.fetchUser v) →
      e ≠ Effect.adminLog Text.rateLimit ∧ e ≠ Effect.timer (10 * 60 * 1000) := by
    intro e he
    rcases he with h | ⟨_, _, h⟩ | ⟨_, _, h⟩ | ⟨_, _, _, h⟩ | ⟨_, _, h⟩ | ⟨_, h⟩ | ⟨_, h⟩ <;>
      subst h <;> simp
  have hall : (∀ p u m, (sweepResume now o st phase).2.1 ≠ SweepPhase.cooling p u m) ∧
      ∀ e ∈ (sweepResume now o st phase).2.2,
        (e = Effect.randomDelay 10000 30000 ∨ (∃ uid t, e = Effect.dm uid t) ∨
          (∃ v t, e = Effect.adminLog (Text.apiError v t)) ∨
          (∃ v w t, e = Effect.adminLog (Text.becameAvailable v w t)) ∨
          (∃ v t, e = Effect.adminLog (Text.checkFailed v t)) ∨ (∃ v, e = Effect.probe v) ∨
          ∃ v, e = Effect.fetchUser v) := by
    have hfetch : ∀ e : Effect, (∃ uid, e = Effect.fetchUser uid) →
        (e = Effect.randomDelay 10000 30000 ∨ (∃ uid t, e = Effect.dm uid t) ∨
          (∃ v t, e = Effect.adminLog (Text.apiError v t)) ∨
          (∃ v w t, e = Effect.adminLog (Text.becameAvailable v w t)) ∨
          (∃ v t, e = Effect.adminLog (Text.checkFailed v t)) ∨ (∃ v, e = Effect.probe v) ∨
          ∃ v, e = Effect.fetchUser v) :=
      fun e h => Or.inr (Or.inr (Or.inr (Or.inr (Or.inr (Or.inr h)))))
    cases phase with
    | starting =>
      refine ⟨(sweepAdvance_shape st 0).1, fun e he => Or.inl ((sweepAdvance_shape st 0).2 e he)⟩
    | delaying pos u r =>
      simp [sweepResume]
    | probing pos u r =>
      obtain ⟨res, hres⟩ := check_ok u o
      by_cases h404 : res.status = 404
      · simp only [sweepResume, hres, h404, if_true]
        refine ⟨(sweepNotify_shape now st pos u r 0).1, ?_⟩
        intro e he
        rcases List.mem_append.mp he with h | h
        · obtain ⟨t, ht⟩ := check_effects u o e h
          exact Or.inr (Or.inr (Or.inl ⟨u, t, ht⟩))
        · rcases (sweepNotify_shape now st pos u r 0).2 e h with h | h
          · exact Or.inl h
          · exact hfetch e h
      · simp only [sweepResume, hres, h404, if_false]
        refine ⟨(sweepAdvance_shape _ pos).1, ?_⟩
        intro e he
        rcases List.mem_append.mp he with h | h
        · obtain ⟨t, ht⟩ := check_effects u o e h
          exact Or.inr (Or.inr (Or.inl ⟨u, t, ht⟩))
        · exact Or.inl ((sweepAdvance_shape _ pos).2 e h)
    | fetching pos u r index data totalTime =>
      simp [sweepResume]
    | sending pos u r index data totalTime =>
      simp only [sweepResume]
      refine ⟨(sweepNotify_shape now st pos u r (index + 1)).1, ?_⟩
      intro e he
      rcases List.mem_cons.mp he with h | h
      · exact Or.inr (Or.inr (Or.inr (Or.inl ⟨_, _, _, h⟩)))
      · rcases (sweepNotify_shape now st pos u r (index + 1)).2 e h with h | h
        · exact Or.inl h
        · exact hfetch e h
    | cooling pos u message =>
      simp only [sweepResume]
      refine ⟨(sweepAdvance_shape st pos).1, ?_⟩
      intro e he
      rcases List.mem_cons.mp he with h | h
      · exact Or.inr (Or.inr (Or.inr (Or.inr (Or.inl ⟨_, _, h⟩))))
      · exact Or.inl ((sweepAdvance_shape st pos).2 e h)
    | finished =>
      simp [sweepResume]
  refine ⟨hall.1, ?_, ?_, ?_⟩
  · intro hmem
    exact (hshape _ (hall.2 _ hmem)).1 rfl
  · intro hmem
    exact (hshape _ (hall.2 _ hmem)).2 rfl
  · intro pos u r data
    have hv : validateStatus 429 = false := by decide
    simp [sweepResume, checkInstagramUsername, axiosGet, hv]
    rfl

/-! ## Induction over the reachable states -/

theorem dispatch_preserves (P : Store → Prop)
    (hframe : ∀ st subs pm, P st →
      P { st with userSubscriptions := subs, processedMessages := pm })
    (hadd : ∀ now u s st, P st → P (addWatch now u s st).2)
    (hrem : ∀ u s st, P st → P (removeWatch u s st).2)
    (cfg : Config) (now : Int) (m : Message) (st : Store) (h : P st) :
    P (dispatch cfg now m st).1 := by
  have hsubs : ∀ subs, P { st with userSubscriptions := subs } :=
    fun subs => hframe st subs st.processedMessages h
  unfold dispatch
  cases hc : m.command with
  | adduser arg =>
    simp only
    split
    · split
      · exact h
      · split
        · exact h
        · exact hsubs _
    · exact h
  | removeuser arg =>
    simp only
    split
    · split
      · exact h
      · split
        · exact hsubs _
        · exact h
    · exact h
  | listsubs =>
    simp only
    split
    · split <;> exact h
    · exact h
  | watch username =>
    simp only
    split
    · exact h
    · have := hadd now username m.authorId st h
      split
      all_goals (rename_i st1 heq; rw [heq] at this; exact this)
  | unwatch username =>
    simp only
    have := hrem username m.authorId st h
    split
    · rename_i st1 heq
      rw [heq] at this
      exact this
    · rename_i st1 heq
      rw [heq] at this
      split <;> exact this
  | list =>
    simp only
    split <;> exact h
  | help => exact h
  | other => exact h

theorem messageCreate_preserves (P : Store → Prop)
    (hframe : ∀ st subs pm, P st →
      P { st with userSubscriptions := subs, processedMessages := pm })
    (hadd : ∀ now u s st, P st → P (addWatch now u s st).2)
    (hrem : ∀ u s st, P st → P (removeWatch u s st).2)
    (cfg : Config) (now : Int) (m : Message) (st : Store) (h : P st) :
    P (messageCreate cfg now m st).1 := by
  have hpm : ∀ pm, P { st with processedMessages := pm } :=
    fun pm => hframe st st.userSubscriptions pm h
  unfold messageCreate
  split_ifs
  · exact h
  · exact h
  · dsimp only
    split
    · exact hpm _
    · exact hpm _
    · exact dispatch_preserves P hframe hadd hrem cfg now m _ (hpm _)

/-- A property of the store that holds at start-up and is kept by the registry updates of
the two commands, by the continuation of `!watch`, by every segment of a sweep, and by
changes to the subscriptions and the message-id set, holds in every reachable state. -/
theorem reachable_store_induction (P : Store → Prop) (h0 : P Store.init)
    (hframe : ∀ st subs pm, P st →
      P { st with userSubscriptions := subs, processedMessages := pm })
    (hadd : ∀ now u s st, P st → P (addWatch now u s st).2)
    (hrem : ∀ u s st, P st → P (removeWatch u s st).2)
    (hwc : ∀ u s o st, P st → P (watchChecked u s o st).1)
    (hsw : ∀ now o st phase, P st → P (sweepResume now o st phase).1)
    (cfg : Config) (sys : System) (hreach : Reachable cfg sys) : P sys.store := by
  have hstep : ∀ ev (s : System), P s.store → P (step cfg ev s).1.store := by
    intro ev s hs
    cases ev with
    | message now m =>
      have := messageCreate_preserves P hframe hadd hrem cfg now m s.store hs
      simp only [step]
      split <;> exact this
    | watchChecked i o =>
      simp only [step]
      split
      · exact hwc _ _ _ _ hs
      · exact hs
    | tick =>
      simp only [step]
      split <;> exact hs
    | sweepResume i now o =>
      simp only [step]
      split
      · exact hsw _ _ _ _ hs
      · exact hs
    | sweepFetchRejected i now =>
      simp only [step]
      split
      · rename_i phase _
        cases phase with
        | fetching pos u r index data totalTime =>
          exact hsw now (AxiosOutcome.failure "") s.store
            (SweepPhase.sending pos u r index data totalTime) hs
        | starting => exact hs
        | delaying pos u r => exact hs
        | probing pos u r => exact hs
        | sending pos u r index data totalTime => exact hs
        | cooling pos u message => exact hs
        | finished => exact hs
      · exact hs
  have hrun : ∀ evs (s : System), P s.store → P (run cfg evs s).store := by
    intro evs
    induction evs with
    | nil => intro s hs; exact hs
    | cons ev rest ih => intro s hs; exact ih _ (hstep ev s hs)
  obtain ⟨evs, hevs⟩ := hreach
  rw [← hevs]
  exact hrun evs System.init h0

/-! ## Well-formedness is kept -/

theorem JsMap.entries_set_of_get_some {V : Type} (m : JsMap V) (k : String) (v v0 : V)
    (hnd : ((JsMap.entries m).map Prod.fst).Nodup) (h : JsMap.get m k = some v0) :
    JsMap.entries (JsMap.set m k v) =
      (JsMap.entries m).map (fun kv => if kv.1 = k then (k, v) else kv) := by
  induction m with
  | nil => simp [JsMap.get] at h
  | cons slot t ih =>
    cases slot with
    | none =>
      simp only [JsMap.get] at h
      simp only [JsMap.entries, List.filterMap_cons, id] at hnd
      simpa [JsMap.set, JsMap.entries] using ih hnd h
    | some kv =>
      obtain ⟨k', v'⟩ := kv
      simp only [JsMap.entries, List.filterMap_cons, id, List.map_cons, List.nodup_cons] at hnd
      by_cases hk : k' = k
      · subst hk
        have hrest : (List.filterMap id t).map (fun kv => if kv.1 = k' then (k', v) else kv) =
            List.filterMap id t := by
          conv_rhs => rw [← List.map_id (List.filterMap id t)]
          apply List.map_congr_left
          intro kv hkv
          have : kv.1 ≠ k' := by
            intro heq
            apply hnd.1
            exact List.mem_map.mpr ⟨kv, hkv, heq⟩
          simp [this]
        simp [JsMap.set, JsMap.entries, hrest]
      · simp only [JsMap.get, hk, if_false] at h
        have := ih hnd.2 h
        simp only [JsMap.entries] at this
        simp [JsMap.set, JsMap.entries, hk, this]

theorem JsMap.not_mem_keys_of_get_none {V : Type} (m : JsMap V) (k : String)
    (h : JsMap.get m k = none) : k ∉ (JsMap.entries m).map Prod.fst := by
  induction m with
  | nil => simp [JsMap.entries]
  | cons slot t ih =>
    cases slot with
    | none =>
      simp only [JsMap.get] at h
      simpa [JsMap.entries] using ih h
    | some kv =>
      obtain ⟨k', v'⟩ := kv
      by_cases hk : k' = k
      · simp [JsMap.get, hk] at h
      · simp only [JsMap.get, hk, if_false] at h
        have := ih h
        simp only [JsMap.entries] at this
        simp only [JsMap.entries, List.filterMap_cons, id, List.map_cons, List.mem_cons, not_or]
        exact ⟨fun heq => hk heq.symm, this⟩

theorem mapWF_mono (m : JsMap Nat) (n : Nat) (h : MapWF m n) : MapWF m (n + 1) :=
  ⟨h.1, h.2.1, fun kv hkv => Nat.lt_succ_of_lt (h.2.2 kv hkv)⟩

theorem mapWF_delete (m : JsMap Nat) (n : Nat) (k : String) (h : MapWF m n) :
    MapWF (JsMap.delete m k) n := by
  have hsub : (JsMap.entries (JsMap.delete m k)).Sublist (JsMap.entries m) := by
    rw [JsMap.entries_delete]
    exact List.filter_sublist _
  exact ⟨h.1.sublist (hsub.map _), h.2.1.sublist (hsub.map _),
    fun kv hkv => h.2.2 kv (hsub.subset hkv)⟩

theorem mapWF_set_fresh (m : JsMap Nat) (n : Nat) (k : String) (h : MapWF m n) :
    MapWF (JsMap.set m k n) (n + 1) := by
  cases hg : JsMap.get m k with
  | none =>
    have hk := JsMap.not_mem_keys_of_get_none m k hg
    have hn : n ∉ (JsMap.entries m).map Prod.snd := by
      intro hmem
      obtain ⟨kv, hkv, heq⟩ := List.mem_map.mp hmem
      have := h.2.2 kv hkv
      omega
    rw [MapWF, JsMap.entries_set_of_get_none m k n hg]
    refine ⟨?_, ?_, ?_⟩
    · simp only [List.map_append, List.map_cons, List.map_nil]
      exact List.Nodup.append h.1 (List.nodup_singleton k) (by simpa using hk)
    · simp only [List.map_append, List.map_cons, List.map_nil]
      exact List.Nodup.append h.2.1 (List.nodup_singleton n) (by simpa using hn)
    · intro kv hkv
      rcases List.mem_append.mp hkv with hkv | hkv
      · exact Nat.lt_succ_of_lt (h.2.2 kv hkv)
      · simp only [List.mem_singleton] at hkv
        subst hkv
        exact Nat.lt_succ_self n
  | some r0 =>
    rw [MapWF, JsMap.entries_set_of_get_some m k n r0 h.1 hg]
    have hE : (JsMap.entries m).Nodup := List.Nodup.of_map _ h.1
    refine ⟨?_, ?_, ?_⟩
    · have : ((JsMap.entries m).map (fun kv => if kv.1 = k then (k, n) else kv)).map Prod.fst =
          (JsMap.entries m).map Prod.fst := by
        rw [List.map_map]
        apply List.map_congr_left
        intro kv _
        by_cases hk : kv.1 = k <;> simp [hk]
      rw [this]
      exact h.1
    · rw [List.map_map]
      apply List.Nodup.map_on _ hE
      intro x hx y hy hxy
      simp only [Function.comp] at hxy
      by_cases hxk : x.1 = k
      · by_cases hyk : y.1 = k
        · exact List.inj_on_of_nodup_map h.1 hx hy (hxk.trans hyk.symm)
        · simp only [hxk, hyk, if_true, if_false] at hxy
          have := h.2.2 y hy
          omega
      · by_cases hyk : y.1 = k
        · simp only [hxk, hyk, if_true, if_false] at hxy
          have := h.2.2 x hx
          omega
        · simp only [hxk, hyk, if_false] at hxy
          exact List.inj_on_of_nodup_map h.2.1 hx hy hxy
    · intro kv hkv
      obtain ⟨kv0, hkv0, heq⟩ := List.mem_map.mp hkv
      by_cases hk : kv0.1 = k
      · simp only [hk, if_true] at heq
        subst heq
        exact Nat.lt_succ_self n
      · simp only [hk, if_false] at heq
        subst heq
        exact Nat.lt_succ_of_lt (h.2.2 kv0 hkv0)

theorem addWatch_wellFormed (now : Int) (u s : String) (st : Store) (h : st.WellFormed) :
    (addWatch now u s st).2.WellFormed := by
  unfold addWatch
  cases hg : JsMap.get st.monitoredUsernames u with
  | none =>
    simp only
    split
    · exact h
    · split
      · exact h
      · exact mapWF_set_fresh _ _ u h
  | some r =>
    simp only
    split
    · exact h
    · split
      · exact h
      · simp only [Store.WellFormed, JsMap.set_eq_self _ _ _ hg]
        exact h

theorem removeWatch_wellFormed (u s : String) (st : Store) (h : st.WellFormed) :
    (removeWatch u s st).2.WellFormed := by
  unfold removeWatch
  cases hg : JsMap.get st.monitoredUsernames u with
  | none => exact h
  | some r =>
    simp only
    split
    · split
      · exact mapWF_delete _ _ u h
      · simp only [Store.WellFormed, JsMap.set_eq_self _ _ _ hg]
        exact h
    · exact h

theorem watchChecked_wellFormed (u s : String) (o : AxiosOutcome) (st : Store)
    (h : st.WellFormed) : (watchChecked u s o st).1.WellFormed := by
  unfold watchChecked
  simp only
  split
  · split
    · split
      · split
        · exact mapWF_delete _ _ u (mapWF_mono _ _ h)
        · exact mapWF_set_fresh _ _ u h
      · exact h
    · exact h
  · exact h

theorem sweepNotify_wellFormed (now : Int) (st : Store) (pos : Nat) (u : String) (r i : Nat)
    (h : st.WellFormed) : (sweepNotify now st pos u r i).1.WellFormed := by
  unfold sweepNotify
  split
  · exact h
  · exact mapWF_delete _ _ u h

theorem sweepResume_wellFormed (now : Int) (o : AxiosOutcome) (st : Store) (phase : SweepPhase)
    (h : st.WellFormed) : (sweepResume now o st phase).1.WellFormed := by
  cases phase with
  | starting => exact h
  | delaying pos u r => exact mapWF_set_fresh _ _ u h
  | probing pos u r =>
    simp only [sweepResume]
    split
    · split
      · exact sweepNotify_wellFormed now st pos u r 0 h
      · exact mapWF_set_fresh _ _ u h
    · split
      · exact mapWF_set_fresh _ _ u h
      · exact mapWF_set_fresh _ _ u h
  | fetching pos u r index data totalTime => exact h
  | sending pos u r index data totalTime =>
    exact sweepNotify_wellFormed now st pos u r (index + 1) h
  | cooling pos u message => exact h
  | finished => exact h

/-- Every reachable store is well formed. -/
theorem reachable_wellFormed (cfg : Config) (sys : System) (h : Reachable cfg sys) :
    sys.store.WellFormed :=
  reachable_store_induction Store.WellFormed
    ⟨List.nodup_nil, List.nodup_nil, fun _ hkv => by simp [Store.init, JsMap.entries] at hkv⟩
    (fun _ _ _ hst => hst) addWatch_wellFormed removeWatch_wellFormed watchChecked_wellFormed
    sweepResume_wellFormed cfg sys h

/-! ## C9: one entry per subscriber under each username -/

theorem distinctHeap_update (heap : Nat → List MonitorEntry) (r : Nat) (x : List MonitorEntry)
    (h : DistinctHeap heap) (hx : (x.map (fun e => e.userId)).Nodup) :
    DistinctHeap (Function.update heap r x) := by
  intro r'
  by_cases hr : r' = r
  · subst hr
    simpa using hx
  · simpa [Function.update, hr] using h r'

theorem withStatus_userIds (status : Status) (now : Int) (l : List MonitorEntry) :
    (withStatus status now l).map (fun e => e.userId) = l.map (fun e => e.userId) := by
  simp [withStatus, List.map_map, Function.comp]

theorem addWatch_distinct (now : Int) (u s : String) (st : Store) (h : DistinctHeap st.heap) :
    DistinctHeap (addWatch now u s st).2.heap := by
  unfold addWatch
  cases hg : JsMap.get st.monitoredUsernames u with
  | none =>
    simp only
    split
    · exact h
    · split
      · exact h
      · exact distinctHeap_update _ _ _ h (by simp)
  | some r =>
    simp only
    split
    · exact h
    · rename_i hfind
      split
      · exact h
      · apply distinctHeap_update _ _ _ h
        have hnot : ∀ x ∈ st.heap r, x.userId ≠ s := by
          intro x hx heq
          apply hfind
          rw [List.find?_isSome]
          exact ⟨x, hx, by simpa using heq⟩
        rw [List.map_append]
        apply List.Nodup.append (h r) (by simp)
        simp only [List.map_cons, List.map_nil, List.disjoint_singleton, List.mem_map, not_exists,
          not_and]
        exact fun x hx => hnot x hx

theorem removeWatch_distinct (u s : String) (st : Store) (h : DistinctHeap st.heap) :
    DistinctHeap (removeWatch u s st).2.heap := by
  unfold removeWatch
  cases hg : JsMap.get st.monitoredUsernames u with
  | none => exact h
  | some r =>
    simp only
    split
    · rename_i userIndex _
      have hx : (((st.heap r).eraseIdx userIndex).map (fun e => e.userId)).Nodup :=
        (h r).sublist ((List.eraseIdx_sublist _ _).map _)
      split
      · exact distinctHeap_update _ _ _ h hx
      · exact distinctHeap_update _ _ _ h hx
    · exact h

theorem watchChecked_distinct (u s : String) (o : AxiosOutcome) (st : Store)
    (h : DistinctHeap st.heap) : DistinctHeap (watchChecked u s o st).1.heap := by
  unfold watchChecked
  simp only
  split
  · split
    · split
      · rename_i r _
        have hx : (((st.heap r).filter (fun data => data.userId != s)).map
            (fun e => e.userId)).Nodup := (h r).sublist ((List.filter_sublist _).map _)
        split
        · exact distinctHeap_update _ _ _ h hx
        · exact distinctHeap_update _ _ _ h hx
      · exact h
    · exact h
  · exact h

theorem sweepNotify_heap (now : Int) (st : Store) (pos : Nat) (u : String) (r i : Nat) :
    (sweepNotify now st pos u r i).1.heap = st.heap := by
  unfold sweepNotify
  split <;> rfl

theorem sweepResume_distinct (now : Int) (o : AxiosOutcome) (st : Store) (phase : SweepPhase)
    (h : DistinctHeap st.heap) : DistinctHeap (sweepResume now o st phase).1.heap := by
  have hmark : ∀ (status : Status) (t : Int) (r : Nat),
      DistinctHeap (st.alloc (withStatus status t (st.heap r))).2.heap := by
    intro status t r
    exact distinctHeap_update _ _ _ h (by rw [withStatus_userIds]; exact h r)
  cases phase with
  | starting => exact h
  | delaying pos u r => exact hmark _ _ _
  | probing pos u r =>
    simp only [sweepResume]
    split
    · split
      · rw [sweepNotify_heap]
        exact h
      · exact hmark _ _ _
    · split
      · exact hmark _ _ _
      · exact hmark _ _ _
  | fetching pos u r index data totalTime => exact h
  | sending pos u r index data totalTime =>
    simp only [sweepResume]
    rw [sweepNotify_heap]
    exact h
  | cooling pos u message => exact h
  | finished => exact h

/-- C9: in every state reachable from start-up by messages (so `!watch` and `!unwatch`
commands), continuations of `!watch`, cron ticks and sweep segments in any interleaving,
no username's array holds two entries with the same `userId`. -/
theorem registry_unique_subscribers (cfg : Config) (sys : System) (h : Reachable cfg sys) :
    ∀ (u : String) (l : List MonitorEntry), sys.store.entriesOf u = some l →
      (l.map (fun e => e.userId)).Nodup := by
  have hd : DistinctHeap sys.store.heap :=
    reachable_store_induction (fun st => DistinctHeap st.heap)
      (fun _ => List.nodup_nil) (fun _ _ _ hst => hst) addWatch_distinct removeWatch_distinct
      watchChecked_distinct sweepResume_distinct cfg sys h
  intro u l hl
  obtain ⟨r, -, hr⟩ := (entriesOf_eq_some _ _ _).mp hl
  rw [← hr]
  exact hd r

/-- Witness of C9: the state after `availableTrace`, in which the admin and `"7"` are
both under `"alice"` while a sweep is probing it, is reachable. -/
theorem registry_unique_subscribers_witness :
    Reachable exampleCfg (run exampleCfg availableTrace System.init) ∧
      (run exampleCfg availableTrace System.init).store.entriesOf "alice" =
        some [⟨10, "1", Status.checking, 40⟩, ⟨20, "7", Status.checking, 40⟩] ∧
      (([⟨10, "1", Status.checking, 40⟩, ⟨20, "7", Status.checking, 40⟩] :
        List MonitorEntry).map (fun e => e.userId)).Nodup :=
  ⟨⟨availableTrace, rfl⟩, by decide,
    registry_unique_subscribers exampleCfg (run exampleCfg availableTrace System.init)
      ⟨availableTrace, rfl⟩ "alice" _ (by decide)⟩

/-! ## C10: usernames with an empty array -/

/-- C10 fails on the code: after `ghostTrace` (an unwatch of the last entry handled while
the sweep waits out its random delay before the same username) the key `"alice"` is in
the registry with an empty array, and it is still there with an empty array after the
probe has ended TAKEN. -/
theorem empty_array_retained :
    Reachable exampleCfg (run exampleCfg ghostTrace System.init) ∧
      (run exampleCfg ghostTrace System.init).store.registry = [("alice", [])] ∧
      (run exampleCfg
          (ghostTrace ++
            [Event.sweepResume 0 50 (AxiosOutcome.response 200 (ResponseData.text "profile"))])
          System.init).store.registry = [("alice", [])] :=
  ⟨⟨ghostTrace, rfl⟩, by decide, by decide⟩

/-! ## C11: the slot limit as an invariant -/

/-- C11 fails on the code: after `slotTrace` (with a probe of `"a"` in flight, `"7"`
unwatches `"a"` and watches `"d"`; the probe then ends TAKEN and the sweep writes the
array it holds back under `"a"`) subscriber `"7"` holds 4 entries, under `"b"`, `"c"`,
`"d"` and `"a"`. -/
theorem slot_limit_exceeded :
    Reachable exampleCfg (run exampleCfg slotTrace System.init) ∧
      userMonitorCount (run exampleCfg slotTrace System.init).store "7" = 4 ∧
      (run exampleCfg slotTrace System.init).store.registry =
        [("b", [⟨2000, "7", Status.monitoring, 2000⟩]),
          ("c", [⟨3000, "7", Status.monitoring, 3000⟩]),
          ("d", [⟨82000, "7", Status.monitoring, 82000⟩]),
          ("a", [⟨1000, "7", Status.monitoring, 90000⟩])] :=
  ⟨⟨slotTrace, rfl⟩, by decide, by decide⟩

/-! ## C12: fencing of overlapping sweeps -/

/-- C12 fails on the code in its first part.  After `overlapTrace` sweep 0 awaits its
probe of `"b"`, whose entry is `checking`, and sweep 1 is in the random delay it started
when `"b"` was still `monitoring`.  When that delay ends at 143500, sweep 1 marks `"b"`
again and invokes the Prober for `"b"`: two probes of `"b"` are in flight.  The second
part holds: a sweep that reaches a slot whose array has an entry in `checking` moves on
to the next slot (nothing is probed or written on the way, `nextUsername` only reads). -/
theorem two_probes_in_flight :
    Reachable exampleCfg (run exampleCfg overlapTrace System.init) ∧
      (run exampleCfg overlapTrace System.init).sweeps =
        [SweepPhase.probing 2 "b" 1, SweepPhase.delaying 2 "b" 1] ∧
      (run exampleCfg overlapTrace System.init).store.entriesOf "b" =
        some [⟨2000, "7", Status.checking, 135000⟩] ∧
      (step exampleCfg (Event.sweepResume 1 143500 (AxiosOutcome.failure ""))
          (run exampleCfg overlapTrace System.init)).2 = [Effect.probe "b"] ∧
      (step exampleCfg (Event.sweepResume 1 143500 (AxiosOutcome.failure ""))
          (run exampleCfg overlapTrace System.init)).1.sweeps =
        [SweepPhase.probing 2 "b" 1, SweepPhase.probing 2 "b" 1] ∧
      probesInFlight (step exampleCfg (Event.sweepResume 1 143500 (AxiosOutcome.failure ""))
          (run exampleCfg overlapTrace System.init)).1 "b" = 2 ∧
      ∀ (heap : Nat → List MonitorEntry) (u : String) (r : Nat)
        (t : List (Option (String × Nat))) (pos : Nat),
        (heap r).any (fun data => data.status == Status.checking) = true →
          nextUsername heap (some (u, r) :: t) pos = nextUsername heap t (pos + 1) := by
  refine ⟨⟨overlapTrace, rfl⟩, by decide, by decide, by decide, by decide, by decide, ?_⟩
  intro heap u r t pos hany
  simp only [nextUsername, hany, if_true]

/-! ## C13: the elapsed-time format -/

/-- C13 as stated fails on the template of the minutes shape: for `ms = 65000` the
claim's `{n}m{s}s` is `1m5s`, the code returns `1m 5s`. -/
theorem formatTime_template_counterexample :
    toString ((65000 : Int) / 1000 / 60) ++ "m" ++ toString ((65000 : Int) / 1000 % 60) ++ "s" =
        "1m5s" ∧
      formatTime 65000 = "1m 5s" ∧ formatTime 65000 ≠ "1m5s" := by
  decide

/-- C13, amended: for an integer `ms` with `0 ≤ ms < 2 ^ 53` (the range in which the
doubles of the code are exact; `2 ^ 53 = 9007199254740992`) and `total = ms / 1000`
rounded down, `formatTime ms` is `total` then `s` when `total < 60`; minutes then seconds
with one space between the fields (`{n}m {s}s`) when `60 ≤ total < 3600`; hours, minutes
and seconds (`{h}h {n}m {s}s`) when `3600 ≤ total < 86400`; days, hours and minutes
(`{d}d {h}h {n}m`) from 86400 on.  The leading field is positive, every later field is
the remainder modulo its unit (seconds and minutes below 60, hours below 24), and the
fields recombine to `total`, in the days shape to `total` rounded down to a whole
minute. -/
theorem formatTime_shape (ms : Int) (h : 0 ≤ ms) (_hmax : ms < 9007199254740992) :
    (ms / 1000 < 60 → formatTime ms = toString (ms / 1000) ++ "s") ∧
      (60 ≤ ms / 1000 → ms / 1000 < 3600 →
        formatTime ms =
            toString (ms / 1000 / 60) ++ "m " ++ toString (ms / 1000 % 60) ++ "s" ∧
          0 < ms / 1000 / 60 ∧ ms / 1000 / 60 < 60 ∧
          0 ≤ ms / 1000 % 60 ∧ ms / 1000 % 60 < 60 ∧
          ms / 1000 / 60 * 60 + ms / 1000 % 60 = ms / 1000) ∧
      (3600 ≤ ms / 1000 → ms / 1000 < 86400 →
        formatTime ms =
            toString (ms / 1000 / 3600) ++ "h " ++ toString (ms / 1000 / 60 % 60) ++ "m " ++
              toString (ms / 1000 % 60) ++ "s" ∧
          0 < ms / 1000 / 3600 ∧ ms / 1000 / 3600 < 24 ∧
          0 ≤ ms / 1000 / 60 % 60 ∧ ms / 1000 / 60 % 60 < 60 ∧
          0 ≤ ms / 1000 % 60 ∧ ms / 1000 % 60 < 60 ∧
          ms / 1000 / 3600 * 3600 + ms / 1000 / 60 % 60 * 60 + ms / 1000 % 60 = ms / 1000) ∧
      (86400 ≤ ms / 1000 →
        formatTime ms =
            toString (ms / 1000 / 86400) ++ "d " ++ toString (ms / 1000 / 3600 % 24) ++ "h " ++
              toString (ms / 1000 / 60 % 60) ++ "m" ∧
          0 < ms / 1000 / 86400 ∧
          0 ≤ ms / 1000 / 3600 % 24 ∧ ms / 1000 / 3600 % 24 < 24 ∧
          0 ≤ ms / 1000 / 60 % 60 ∧ ms / 1000 / 60 % 60 < 60 ∧
          ms / 1000 / 86400 * 86400 + ms / 1000 / 3600 % 24 * 3600 + ms / 1000 / 60 % 60 * 60 =
            ms / 1000 - ms / 1000 % 60) := by
  have hs : 0 ≤ ms / 1000 := by omega
  have hm : 0 ≤ ms / 1000 / 60 := by omega
  have hh : 0 ≤ ms / 1000 / 60 / 60 := by omega
  have e1 : Int.tmod (ms / 1000) 60 = ms / 1000 % 60 := Int.tmod_eq_emod hs (by decide)
  have e2 : Int.tmod (ms / 1000 / 60) 60 = ms / 1000 / 60 % 60 := Int.tmod_eq_emod hm (by decide)
  have e3 : Int.tmod (ms / 1000 / 60 / 60) 24 = ms / 1000 / 3600 % 24 := by
    rw [Int.tmod_eq_emod hh (by decide)]
    omega
  have d1 : ms / 1000 / 60 / 60 = ms / 1000 / 3600 := by omega
  have d2 : ms / 1000 / 60 / 60 / 24 = ms / 1000 / 86400 := by omega
  refine ⟨?_, ?_, ?_, ?_⟩
  · intro hlt
    have c1 : ¬ ms / 1000 / 60 / 60 / 24 > 0 := by omega
    have c2 : ¬ ms / 1000 / 60 / 60 > 0 := by omega
    have c3 : ¬ ms / 1000 / 60 > 0 := by omega
    simp only [formatTime]
    rw [if_neg c1, if_neg c2, if_neg c3]
  · intro hge hlt
    have c1 : ¬ ms / 1000 / 60 / 60 / 24 > 0 := by omega
    have c2 : ¬ ms / 1000 / 60 / 60 > 0 := by omega
    have c3 : ms / 1000 / 60 > 0 := by omega
    refine ⟨?_, by omega, by omega, by omega, by omega, by omega⟩
    simp only [formatTime]
    rw [if_neg c1, if_neg c2, if_pos c3, e1]
  · intro hge hlt
    have c1 : ¬ ms / 1000 / 60 / 60 / 24 > 0 := by omega
    have c2 : ms / 1000 / 60 / 60 > 0 := by omega
    refine ⟨?_, by omega, by omega, by omega, by omega, by omega, by omega, by omega⟩
    simp only [formatTime]
    rw [if_neg c1, if_pos c2, e1, e2, d1]
  · intro hge
    have c1 : ms / 1000 / 60 / 60 / 24 > 0 := by omega
    refine ⟨?_, by omega, by omega, by omega, by omega, by omega, by omega⟩
    simp only [formatTime]
    rw [if_pos c1, e2, e3, d2]

/-- Witness of C13: one time in each of the four shapes. -/
theorem formatTime_shape_witness :
    (0 : Int) ≤ 3725000 ∧ (3725000 : Int) < 9007199254740992 ∧
      formatTime 3725000 = "1h 2m 5s" ∧ formatTime 65000 = "1m 5s" ∧
      formatTime 59999 = "59s" ∧ formatTime 90061000 = "1d 1h 1m" :=
  ⟨by decide,
    by decide,
    ((formatTime_shape 3725000 (by decide) (by decide)).2.2.1 (by decide) (by decide)).1.trans
      (by decide),
    ((formatTime_shape 65000 (by decide) (by decide)).2.1 (by decide) (by decide)).1.trans
      (by decide),
    ((formatTime_shape 59999 (by decide) (by decide)).1 (by decide)).trans (by decide),
    ((formatTime_shape 90061000 (by decide) (by decide)).2.2.2 (by decide)).1.trans (by decide)⟩

/-! ## C14: a watch accepted while the username is being checked -/

/-- C14 fails on the code.  After `lostWatchPrefix` the sweep awaits its probe of `"a"`
and the registry holds the `checking` copy of the entry of `"7"`.  The watch of `"a"` by
`"8"` is accepted (the entry is appended, `"8"` is told that `"a"` is now monitored).
When the probe then ends TAKEN, or fails (ERROR), the sweep writes the array it took from
the iterator back under `"a"`: the registry holds the entry of `"7"` alone and `"8"` has
no entry at all.  This is so whenever the sweep holds an array `r` other than the array
`r'` stored under `u`, as it does once it has marked `u`: after a successful watch and a
probe that is not AVAILABLE the array under `u` is the array `r` as it was, mapped to
`monitoring`. -/
theorem watch_during_probe_lost :
    (run exampleCfg lostWatchPrefix System.init).sweeps = [SweepPhase.probing 1 "a" 0] ∧
      (run exampleCfg lostWatchPrefix System.init).store.registry =
        [("a", [⟨1000, "7", Status.checking, 80000⟩])] ∧
      (step exampleCfg lostWatchMessage (run exampleCfg lostWatchPrefix System.init)).2 =
        [Effect.adminLog (Text.startedMonitoring "8" "a"),
          Effect.dm "8" (Text.nowMonitoring "a"), Effect.probe "a"] ∧
      (step exampleCfg lostWatchMessage
          (run exampleCfg lostWatchPrefix System.init)).1.store.registry =
        [("a", [⟨1000, "7", Status.checking, 80000⟩, ⟨85000, "8", Status.monitoring, 85000⟩])] ∧
      (run exampleCfg (lostWatchPrefix ++ [lostWatchMessage,
          Event.sweepResume 0 90000 (AxiosOutcome.response 200 (ResponseData.text "profile"))])
          System.init).store.registry = [("a", [⟨1000, "7", Status.monitoring, 90000⟩])] ∧
      (run exampleCfg (lostWatchPrefix ++ [lostWatchMessage,
          Event.sweepResume 0 90000 (AxiosOutcome.failure "timeout of 15000ms exceeded")])
          System.init).store.registry = [("a", [⟨1000, "7", Status.monitoring, 90000⟩])] ∧
      listFor (run exampleCfg (lostWatchPrefix ++ [lostWatchMessage,
          Event.sweepResume 0 90000 (AxiosOutcome.response 200 (ResponseData.text "profile"))])
          System.init).store "8" = [] ∧
      ∀ (now t2 : Int) (o : AxiosOutcome) (st st1 : Store) (pos : Nat) (u s2 : String)
        (r r' : Nat),
        JsMap.get st.monitoredUsernames u = some r' → r' ≠ r →
        addWatch now u s2 st = (WatchResult.Added, st1) →
        (∀ res, (checkInstagramUsername u o).1 = Except.ok res → res.status ≠ 404) →
        (sweepResume t2 o st1 (SweepPhase.probing pos u r)).1.entriesOf u =
          some (withStatus Status.monitoring t2 (st.heap r)) := by
  refine ⟨by decide, by decide, by decide, by decide, by decide, by decide, by decide, ?_⟩
  intro now t2 o st st1 pos u s2 r r' hg hne hadd hnot
  have hheap : st1.heap r = st.heap r := by
    unfold addWatch at hadd
    simp only [hg] at hadd
    split at hadd
    · simp at hadd
    · split at hadd
      · simp at hadd
      · simp only [Prod.mk.injEq, true_and] at hadd
        subst hadd
        simp [Function.update, hne.symm]
  obtain ⟨res, hres⟩ := check_ok u o
  have h404 : ¬ res.status = 404 := hnot res hres
  simp only [sweepResume, hres, h404, if_false, sweepRevert, Store.entriesOf,
    JsMap.get_set_self, Option.map_some']
  simp [Store.alloc, hheap]

end ArloBot
